import Mathlib

/-!
A verification development of unifi-prom-sd.

Shallow embedding of `cmd/unifi-prom-sd/main.go`.

* The program's own functions (`loadConfig`, `login`, `getDeviceList`, the
  request handler registered in `main`) are transcribed statement by statement.
* The network, the file system and the HTTP response stream are the
  environment: they are the fields of `World`, and every theorem quantifies
  over all of them.
* The Go standard library calls the program makes (`encoding/json`,
  `net/http` request construction and cookies, `log.Fatal`) are modelled by
  their documented behaviour; each such definition says which library
  function it stands for.
* Go `string`s are modelled by Lean `String`s, that is by valid Unicode text.
-/

namespace UnifiPromSD

/-! ## JSON values and the `encoding/json` scanner -/

/-- A JSON value as the `encoding/json` scanner delimits it.  A number keeps
its literal text, because the decoder converts the literal according to the
Go type it is stored into. -/
inductive Json where
  | null : Json
  | bool (b : Bool) : Json
  | num (lit : String) : Json
  | str (s : String) : Json
  | arr (elems : List Json) : Json
  | obj (members : List (String × Json)) : Json

/-- The scanner's `isSpace`: the four JSON white-space characters. -/
def isSpace (c : Char) : Bool :=
  c == ' ' || c == '\t' || c == '\r' || c == '\n'

/-- Drops leading JSON white space. -/
def skipSpace : List Char → List Char
  | [] => []
  | c :: cs => if isSpace c then skipSpace cs else c :: cs

/-- Value of one hexadecimal digit (either case), as in `getu4`. -/
def hexVal (c : Char) : Option Nat :=
  if '0' ≤ c ∧ c ≤ '9' then some (c.toNat - 48)
  else if 'a' ≤ c ∧ c ≤ 'f' then some (c.toNat - 87)
  else if 'A' ≤ c ∧ c ≤ 'F' then some (c.toNat - 55)
  else none

/-- The number written by four hexadecimal digits (the `XXXX` of a `\uXXXX`
escape), as `getu4` computes it. -/
def getu4 (a b c d : Char) : Option Nat :=
  match hexVal a, hexVal b, hexVal c, hexVal d with
  | some x, some y, some z, some w => some (((x * 16 + y) * 16 + z) * 16 + w)
  | _, _, _, _ => none

/-- The character a single-letter escape stands for (`unquoteBytes`). -/
def unescape (e : Char) : Option Char :=
  if e = '"' then some '"'
  else if e = '\\' then some '\\'
  else if e = '/' then some '/'
  else if e = 'b' then some (Char.ofNat 8)
  else if e = 'f' then some (Char.ofNat 12)
  else if e = 'n' then some '\n'
  else if e = 'r' then some '\r'
  else if e = 't' then some '\t'
  else none

/-- The Unicode replacement character U+FFFD, which `unquoteBytes` writes for
an unpaired UTF-16 surrogate escape. -/
def replacementChar : Char := Char.ofNat 0xFFFD

/-- The low surrogate escape that may follow a high surrogate escape: the
value of `\uYYYY` at the head of the input when it lies in `DC00..DFFF`,
together with the input after it. -/
def lowSurrogate : List Char → Option (Nat × List Char)
  | '\\' :: 'u' :: a :: b :: c :: d :: rest =>
    match getu4 a b c d with
    | some n => if 0xDC00 ≤ n ∧ n < 0xE000 then some (n, rest) else none
    | none => none
  | _ => none

/-- Scans a string literal after its opening quote and returns its contents,
unquoted as `unquoteBytes` does, and the input after the closing quote.
Fails on an unterminated literal, a raw control character or an unknown
escape.  The fuel only has to exceed the length of the input. -/
def scanString : Nat → List Char → Option (List Char × List Char)
  | 0, _ => none
  | _ + 1, [] => none
  | fuel + 1, c :: cs =>
    if c = '"' then some ([], cs)
    else if c = '\\' then
      match cs with
      | [] => none
      | e :: cs1 =>
        if e = 'u' then
          match cs1 with
          | a :: b :: x :: d :: cs2 =>
            match getu4 a b x d with
            | none => none
            | some n =>
              if 0xD800 ≤ n ∧ n < 0xDC00 then
                match lowSurrogate cs2 with
                | some (m, cs3) =>
                  (scanString fuel cs3).map fun r =>
                    (Char.ofNat (0x10000 + (n - 0xD800) * 0x400 + (m - 0xDC00)) :: r.1, r.2)
                | none => (scanString fuel cs2).map fun r => (replacementChar :: r.1, r.2)
              else if 0xDC00 ≤ n ∧ n < 0xE000 then
                (scanString fuel cs2).map fun r => (replacementChar :: r.1, r.2)
              else (scanString fuel cs2).map fun r => (Char.ofNat n :: r.1, r.2)
          | _ => none
        else
          match unescape e with
          | none => none
          | some ch => (scanString fuel cs1).map fun r => (ch :: r.1, r.2)
    else if c.toNat < 0x20 then none
    else (scanString fuel cs).map fun r => (c :: r.1, r.2)

/-- Splits off the longest prefix of decimal digits. -/
def takeDigits : List Char → List Char × List Char
  | [] => ([], [])
  | c :: cs =>
    if c.isDigit then ((takeDigits cs).1.cons c, (takeDigits cs).2) else ([], c :: cs)

/-- Scans the integer part of a number: `0`, or a non-zero digit followed by
digits. -/
def scanInt : List Char → Option (List Char × List Char)
  | [] => none
  | c :: cs =>
    if c = '0' then some (['0'], cs)
    else if c.isDigit then some (c :: (takeDigits cs).1, (takeDigits cs).2)
    else none

/-- Scans an optional fraction: a dot that must be followed by a digit. -/
def scanFrac : List Char → Option (List Char × List Char)
  | '.' :: cs =>
    match takeDigits cs with
    | ([], _) => none
    | (ds, rest) => some ('.' :: ds, rest)
  | cs => some ([], cs)

/-- Scans an optional exponent: `e` or `E`, an optional sign, and at least one
digit. -/
def scanExp : List Char → Option (List Char × List Char)
  | [] => some ([], [])
  | c :: cs =>
    if c = 'e' ∨ c = 'E' then
      match cs with
      | [] => none
      | s :: cs1 =>
        if s = '+' ∨ s = '-' then
          match takeDigits cs1 with
          | ([], _) => none
          | (ds, rest) => some (c :: s :: ds, rest)
        else
          match takeDigits (s :: cs1) with
          | ([], _) => none
          | (ds, rest) => some (c :: ds, rest)
    else some ([], c :: cs)

/-- Scans a number literal and returns its text and the input after it. -/
def scanNumber (cs : List Char) : Option (List Char × List Char) :=
  let signed : List Char × List Char :=
    match cs with
    | '-' :: rest => (['-'], rest)
    | _ => ([], cs)
  match scanInt signed.2 with
  | none => none
  | some (int, r1) =>
    match scanFrac r1 with
    | none => none
    | some (frac, r2) =>
      match scanExp r2 with
      | none => none
      | some (exp, r3) => some (signed.1 ++ int ++ frac ++ exp, r3)

/-- Consumes the given literal word (`true`, `false`, `null`). -/
def scanWord : List Char → List Char → Option (List Char)
  | [], cs => some cs
  | _ :: _, [] => none
  | w :: ws, c :: cs => if w = c then scanWord ws cs else none

/-- The scanner's `maxNestingDepth`: a container cannot be opened when this
many containers are already open. -/
def maxNestingDepth : Nat := 10000

mutual
/-- Scans one JSON value at the head of the input (after white space) with
`depth` containers open, and returns it with the input that follows. -/
def parseValue : Nat → Nat → List Char → Option (Json × List Char)
  | 0, _, _ => none
  | fuel + 1, depth, cs =>
    match skipSpace cs with
    | [] => none
    | c :: rest =>
      if c = '{' then
        if maxNestingDepth ≤ depth then none
        else
          match skipSpace rest with
          | '}' :: r => some (Json.obj [], r)
          | _ => (parseMembers fuel (depth + 1) rest).map fun r => (Json.obj r.1, r.2)
      else if c = '[' then
        if maxNestingDepth ≤ depth then none
        else
          match skipSpace rest with
          | ']' :: r => some (Json.arr [], r)
          | _ => (parseElems fuel (depth + 1) rest).map fun r => (Json.arr r.1, r.2)
      else if c = '"' then
        (scanString (rest.length + 1) rest).map fun r => (Json.str (String.mk r.1), r.2)
      else if c = 't' then (scanWord ['r', 'u', 'e'] rest).map fun r => (Json.bool true, r)
      else if c = 'f' then
        (scanWord ['a', 'l', 's', 'e'] rest).map fun r => (Json.bool false, r)
      else if c = 'n' then (scanWord ['u', 'l', 'l'] rest).map fun r => (Json.null, r)
      else (scanNumber (c :: rest)).map fun r => (Json.num (String.mk r.1), r.2)
/-- Scans the elements of a non-empty array up to and including its closing
bracket. -/
def parseElems : Nat → Nat → List Char → Option (List Json × List Char)
  | 0, _, _ => none
  | fuel + 1, depth, cs =>
    match parseValue fuel depth cs with
    | none => none
    | some (v, r) =>
      match skipSpace r with
      | ',' :: r1 => (parseElems fuel depth r1).map fun t => (v :: t.1, t.2)
      | ']' :: r1 => some ([v], r1)
      | _ => none
/-- Scans the members of a non-empty object up to and including its closing
brace. -/
def parseMembers : Nat → Nat → List Char → Option (List (String × Json) × List Char)
  | 0, _, _ => none
  | fuel + 1, depth, cs =>
    match skipSpace cs with
    | '"' :: r =>
      match scanString (r.length + 1) r with
      | none => none
      | some (key, r1) =>
        match skipSpace r1 with
        | ':' :: r2 =>
          match parseValue fuel depth r2 with
          | none => none
          | some (v, r3) =>
            match skipSpace r3 with
            | ',' :: r4 =>
              (parseMembers fuel depth r4).map fun t => ((String.mk key, v) :: t.1, t.2)
            | '}' :: r4 => some ([(String.mk key, v)], r4)
            | _ => none
        | _ => none
    | _ => none
end

/-- Error values of `encoding/json` when decoding. -/
inductive JsonError where
  /-- The input holds no well-formed JSON value: a `*json.SyntaxError`,
  `io.EOF` or `io.ErrUnexpectedEOF`. -/
  | malformed : JsonError
  /-- A `*json.UnmarshalTypeError`: a JSON value of kind `value` cannot be
  stored into the Go type `goType`. -/
  | typeMismatch (value : String) (goType : String) : JsonError
deriving DecidableEq, Repr

/-- The first call of `(*json.Decoder).Decode` on a stream holding `text`, up
to the point where the value is delimited (`readValue`): the first JSON value
of the stream, which is checked syntactically as a whole before anything is
stored.  What follows the value is not looked at by this call: a byte that
cannot follow a top-level value is reported by the next call only. -/
def readValue (text : String) : Except JsonError Json :=
  match parseValue (2 * text.data.length + 2) 0 text.data with
  | none => .error .malformed
  | some (v, _) => .ok v

/-- The function `json.Valid`: the text is one well-formed JSON value with
nothing but white space around it. -/
def jsonValid (text : String) : Bool :=
  match parseValue (2 * text.data.length + 2) 0 text.data with
  | none => false
  | some (_, rest) => (skipSpace rest).isEmpty

/-! ## Storing JSON values into Go values (`encoding/json` decoding) -/

/-- Simple case folding of one character, restricted to what can fold to an
ASCII character: the upper-case ASCII letters, the Kelvin sign (to `k`) and
the long s (to `s`). -/
def foldRune (c : Char) : Char :=
  if 'A' ≤ c ∧ c ≤ 'Z' then Char.ofNat (c.toNat + 32)
  else if c = Char.ofNat 0x212A then 'k'
  else if c = Char.ofNat 0x17F then 's'
  else c

/-- The decoder's case-insensitive comparison of a struct field name with an
object key.  It agrees with `bytes.EqualFold` whenever the field name is
ASCII, which holds for every field of this program. -/
def equalFold (name key : String) : Bool :=
  name.data.map foldRune == key.data.map foldRune

/-- The struct field an object key is stored into: the field with exactly
that name, otherwise the first field whose name matches case-insensitively,
otherwise none (the member is skipped). -/
def findField (names : List String) (key : String) : Option String :=
  match names.find? (fun n => n == key) with
  | some n => some n
  | none => names.find? (fun n => equalFold n key)

/-- Name of a JSON value's kind as `UnmarshalTypeError.Value` reports it. -/
def Json.kind : Json → String
  | .null => "null"
  | .bool _ => "bool"
  | .num _ => "number"
  | .str _ => "string"
  | .arr _ => "array"
  | .obj _ => "object"

/-- Stores a JSON value into a Go `string`: a string is stored, `null` leaves
the field as it is, anything else is a type error. -/
def storeString (cur : String) : Json → Except JsonError String
  | .str s => .ok s
  | .null => .ok cur
  | j => .error (.typeMismatch j.kind "string")

/-- Stores a JSON value into a Go `bool`. -/
def storeBool (cur : Bool) : Json → Except JsonError Bool
  | .bool b => .ok b
  | .null => .ok cur
  | j => .error (.typeMismatch j.kind "bool")

/-- Width in bits of Go's `uint` (the 64-bit targets). -/
def uintSize : Nat := 64

/-- The function `strconv.ParseUint(s, 10, 64)` followed by the decoder's
`OverflowUint` check: the value of a non-empty string of decimal digits when
it fits in a `uint`. -/
def parseUint (s : String) : Option Nat :=
  if s.data ≠ [] ∧ s.data.all Char.isDigit then
    let n := s.data.foldl (fun acc c => acc * 10 + (c.toNat - 48)) 0
    if n < 2 ^ uintSize then some n else none
  else none

/-- Stores a JSON value into a Go `uint`. -/
def storeUint (cur : Nat) : Json → Except JsonError Nat
  | .num lit =>
    match parseUint lit with
    | some n => .ok n
    | none => .error (.typeMismatch ("number " ++ lit) "uint")
  | .null => .ok cur
  | j => .error (.typeMismatch j.kind "uint")

/-- The fields an object's members are stored into, in order: every member
whose key selects a field is stored by `set`; the first type error is the
result (the decoder records the first error and reports it at the end). -/
def storeMembers {α : Type} (names : List String)
    (set : α → String → Json → Except JsonError α) :
    α → List (String × Json) → Except JsonError α
  | a, [] => .ok a
  | a, (key, v) :: rest =>
    match findField names key with
    | none => storeMembers names set a rest
    | some f =>
      match set a f v with
      | .error e => .error e
      | .ok a1 => storeMembers names set a1 rest

/-! ## The program's types -/

/-- The struct `config` with its JSON keys: `unifi_url`, `blackbox_url`,
`Site`, `Username`, `Password`, `listen_port`, `insecure_https`.
`ListenPort` is a Go `uint`: its values are the numbers below
`2 ^ uintSize`. -/
structure config where
  UnifiURL : String
  BlackboxURL : String
  Site : String
  Username : String
  Password : String
  ListenPort : Nat
  InsecureHttps : Bool
deriving DecidableEq, Repr

/-- The struct `device` (the Go field `Type` is written `Type_` here). -/
structure device where
  Name : String
  Ip : String
  Type_ : String
  Model : String
deriving DecidableEq, Repr

/-- The struct `promSDEntry`.  A Go slice or map may be nil, which is `none`;
a map is the list of its key-value pairs. -/
structure promSDEntry where
  Targets : Option (List String)
  Labels : Option (List (String × String))
deriving DecidableEq, Repr

/-- The zero value of `config`, which `var config config` declares. -/
def config.zero : config := ⟨"", "", "", "", "", 0, false⟩

/-- The zero value of `device`, which the decoder allocates for a nil
pointer before it stores an object. -/
def device.zero : device := ⟨"", "", "", ""⟩

/-- The zero value of `promSDEntry`, with which `make` fills a new slice. -/
def promSDEntry.zero : promSDEntry := ⟨none, none⟩

/-! ## Decoding into the program's types -/

/-- JSON names of the fields of `config`, in declaration order. -/
def config.fieldNames : List String :=
  ["unifi_url", "blackbox_url", "Site", "Username", "Password", "listen_port",
    "insecure_https"]

/-- Stores a JSON value into the named field of a `config`. -/
def config.set (c : config) (field : String) (v : Json) : Except JsonError config :=
  if field = "unifi_url" then (storeString c.UnifiURL v).map fun s => { c with UnifiURL := s }
  else if field = "blackbox_url" then
    (storeString c.BlackboxURL v).map fun s => { c with BlackboxURL := s }
  else if field = "Site" then (storeString c.Site v).map fun s => { c with Site := s }
  else if field = "Username" then
    (storeString c.Username v).map fun s => { c with Username := s }
  else if field = "Password" then
    (storeString c.Password v).map fun s => { c with Password := s }
  else if field = "listen_port" then
    (storeUint c.ListenPort v).map fun n => { c with ListenPort := n }
  else if field = "insecure_https" then
    (storeBool c.InsecureHttps v).map fun b => { c with InsecureHttps := b }
  else .ok c

/-- Stores a JSON value into a `config`: the members of an object go to the
fields they select, `null` changes nothing, anything else is a type error. -/
def storeConfig (cur : config) : Json → Except JsonError config
  | .obj members => storeMembers config.fieldNames config.set cur members
  | .null => .ok cur
  | j => .error (.typeMismatch j.kind "main.config")

/-- JSON names of the fields of `device`, in declaration order. -/
def device.fieldNames : List String := ["Name", "Ip", "Type", "Model"]

/-- Stores a JSON value into the named field of a `device`. -/
def device.set (d : device) (field : String) (v : Json) : Except JsonError device :=
  if field = "Name" then (storeString d.Name v).map fun s => { d with Name := s }
  else if field = "Ip" then (storeString d.Ip v).map fun s => { d with Ip := s }
  else if field = "Type" then (storeString d.Type_ v).map fun s => { d with Type_ := s }
  else if field = "Model" then (storeString d.Model v).map fun s => { d with Model := s }
  else .ok d

/-- Stores a JSON value into a `device`. -/
def storeDevice (cur : device) : Json → Except JsonError device
  | .obj members => storeMembers device.fieldNames device.set cur members
  | .null => .ok cur
  | j => .error (.typeMismatch j.kind "main.device")

/-- Stores a JSON value into a `*device`: `null` makes the pointer nil; for
any other value the decoder follows the pointer, allocating a zero `device`
when it is nil, and stores into the struct. -/
def storeDevicePtr (cur : Option device) : Json → Except JsonError (Option device)
  | .null => .ok none
  | j => (storeDevice (cur.getD device.zero) j).map some

/-- A Go `[]*device`: the elements below its length, and the slots of its
backing array between length and capacity (which an earlier decode may have
left filled).  A nil pointer is `none`. -/
structure deviceSlice where
  elems : List (Option device)
  spare : List (Option device)
deriving DecidableEq, Repr

/-- Stores the elements of a JSON array one by one into the slots of the
backing array, element `i` into slot `i` (a slot the array does not have yet
is a fresh nil pointer). -/
def storeElems : List (Option device) → List Json → Except JsonError (List (Option device))
  | _, [] => .ok []
  | backing, j :: js =>
    match storeDevicePtr (backing.headD none) j with
    | .error e => .error e
    | .ok p =>
      match storeElems backing.tail js with
      | .error e => .error e
      | .ok ps => .ok (p :: ps)

/-- Stores a JSON value into a `[]*device`.  An array is decoded element by
element into the existing backing array and the length is set to the number
of elements; an empty array gives a new empty slice; `null` gives the nil
slice; anything else is a type error. -/
def storeSlice (cur : deviceSlice) : Json → Except JsonError deviceSlice
  | .arr [] => .ok ⟨[], []⟩
  | .arr js =>
    match storeElems (cur.elems ++ cur.spare) js with
    | .error e => .error e
    | .ok ps => .ok ⟨ps, (cur.elems ++ cur.spare).drop js.length⟩
  | .null => .ok ⟨[], []⟩
  | j => .error (.typeMismatch j.kind "[]*main.device")

/-- Stores a JSON value into the anonymous `struct { Data []*device }` of
`getDeviceList`, given by the value of its only field. -/
def storeObject (cur : deviceSlice) : Json → Except JsonError deviceSlice
  | .obj members =>
    storeMembers ["Data"]
      (fun o field v => if field = "Data" then storeSlice o v else .ok o) cur members
  | .null => .ok cur
  | j => .error (.typeMismatch j.kind "struct \x7b Data []*main.device \x7d")

/-! ## Encoding (`encoding/json` marshalling) -/

/-- The lower-case hexadecimal digit of a number below sixteen. -/
def hexDigit (n : Nat) : Char :=
  if n < 10 then Char.ofNat (48 + n) else Char.ofNat (87 + n)

/-- How the encoder writes one character of a string with HTML escaping on,
which is the default of both `json.Marshal` and `json.Encoder` (short escapes
for backspace and form feed as from Go 1.22). -/
def quoteChar (c : Char) : List Char :=
  if c = '"' ∨ c = '\\' then ['\\', c]
  else if c = Char.ofNat 8 then ['\\', 'b']
  else if c = Char.ofNat 12 then ['\\', 'f']
  else if c = '\n' then ['\\', 'n']
  else if c = '\r' then ['\\', 'r']
  else if c = '\t' then ['\\', 't']
  else if c.toNat < 0x20 ∨ c = '<' ∨ c = '>' ∨ c = '&' then
    ['\\', 'u', '0', '0', hexDigit (c.toNat / 16), hexDigit (c.toNat % 16)]
  else if c = Char.ofNat 0x2028 ∨ c = Char.ofNat 0x2029 then
    ['\\', 'u', '2', '0', '2', hexDigit (c.toNat % 16)]
  else [c]

/-- The escaped contents of a string. -/
def quoteChars : List Char → List Char
  | [] => []
  | c :: cs => quoteChar c ++ quoteChars cs

/-- A Go string as a JSON string literal. -/
def quote (s : String) : String :=
  String.mk ('"' :: (quoteChars s.data ++ ['"']))

/-- Joins already encoded values with commas. -/
def commaJoin : List String → String
  | [] => ""
  | [x] => x
  | x :: y :: rest => x ++ "," ++ commaJoin (y :: rest)

/-- Byte-wise order of two strings, as the encoder sorts map keys (on UTF-8
text the byte order is the order of the code points). -/
def keyLt : List Char → List Char → Bool
  | _, [] => false
  | [], _ :: _ => true
  | a :: as, b :: bs => a.toNat < b.toNat || (a == b && keyLt as bs)

/-- Inserts a pair into a list of pairs sorted by key. -/
def insertByKey (p : String × String) : List (String × String) → List (String × String)
  | [] => [p]
  | q :: qs => if keyLt q.1.data p.1.data then q :: insertByKey p qs else p :: q :: qs

/-- The pairs of a map sorted by key, the order in which the encoder writes
them. -/
def sortByKey : List (String × String) → List (String × String)
  | [] => []
  | p :: ps => insertByKey p (sortByKey ps)

/-- A `[]string` in JSON: `null` for the nil slice. -/
def encodeStrings : Option (List String) → String
  | none => "null"
  | some xs => "[" ++ commaJoin (xs.map quote) ++ "]"

/-- A `map[string]string` in JSON: `null` for the nil map, otherwise an
object with the keys in sorted order. -/
def encodeMap : Option (List (String × String)) → String
  | none => "null"
  | some kvs =>
    "\x7b" ++ commaJoin ((sortByKey kvs).map fun kv => quote kv.1 ++ ":" ++ quote kv.2) ++ "\x7d"

/-- A `promSDEntry` in JSON, with the keys of its struct tags. -/
def encodeEntry (e : promSDEntry) : String :=
  "\x7b\"targets\":" ++ encodeStrings e.Targets ++ ",\"labels\":" ++ encodeMap e.Labels ++ "\x7d"

/-- The function `json.Marshal` on a non-nil `[]promSDEntry`. -/
def marshalEntries (entries : List promSDEntry) : String :=
  "[" ++ commaJoin (entries.map encodeEntry) ++ "]"

/-! ## The environment -/

/-- A Go `error` value: a message (from `errors.New`, from `fmt.Errorf`
without `%w`, or from the environment), an `encoding/json` error, a
`*url.Error` with its operation, URL and cause, or an error wrapped behind a
prefix by `fmt.Errorf(prefix + "%w", cause)`. -/
inductive GoError where
  | msg (text : String) : GoError
  | json (e : JsonError) : GoError
  | url (op : String) (rawURL : String) (cause : GoError) : GoError
  | wrap (pfx : String) (cause : GoError) : GoError
deriving DecidableEq, Repr

/-- The name and value of an `http.Cookie`, the two parts `AddCookie` puts on
a request. -/
structure Cookie where
  Name : String
  Value : String
deriving DecidableEq, Repr

/-- An `http.Response` as the program reads it: the status code, the cookies
`resp.Cookies()` returns (those of the `Set-Cookie` headers, in order), and
the text that reading `resp.Body` to its end yields. -/
structure Response where
  StatusCode : Nat
  Cookies : List Cookie
  Body : String
deriving DecidableEq, Repr

/-- An `http.Request` without a body: method, URL and the cookies of its
`Cookie` header in the order they were added. -/
structure Request where
  Method : String
  URL : String
  Cookies : List Cookie
deriving DecidableEq, Repr

/-- What the program's surroundings do during one run or one request.

* `readFile path`: `os.Open` and the text the opened file yields.
* `post url contentType body`: `http.Post`.
* `parseURL raw`: the URL check of `http.NewRequest` (`net/url.Parse`);
  nothing is assumed about which URLs it accepts.
* `send request`: `http.DefaultClient.Do`.  The default client has no cookie
  jar, so the request goes out with the cookies it carries.
* `write text`: `Write` on the `http.ResponseWriter`. -/
structure World where
  readFile : String → Except GoError String
  post : String → String → String → Except GoError Response
  parseURL : String → Except GoError Unit
  send : Request → Except GoError Response
  write : String → Except GoError Unit

/-- An upstream HTTP call the program hands to the HTTP client. -/
inductive Call where
  | post (url contentType body : String) : Call
  | send (request : Request) : Call
deriving DecidableEq, Repr

/-- The function `http.NewRequest(method, url, nil)` for a valid method. -/
def newRequest (w : World) (method url : String) : Except GoError Request :=
  match w.parseURL url with
  | .error e => .error e
  | .ok _ => .ok ⟨method, url, []⟩

/-- The method `(*http.Request).AddCookie`: appends the cookie to the
`Cookie` header. -/
def Request.AddCookie (request : Request) (cookie : Cookie) : Request :=
  { request with Cookies := request.Cookies ++ [cookie] }

/-! ## The program -/

/-- The call `decoder.Decode(&config)` of `loadConfig` on a file holding
`text`, `config` being the zero value. -/
def decodeConfig (text : String) : Except JsonError config :=
  match readValue text with
  | .error e => .error e
  | .ok j => storeConfig config.zero j

/-- The function `loadConfig`. -/
def loadConfig (w : World) (configPath : String) : Except GoError config :=
  match w.readFile configPath with
  | .error err => .error (.wrap "opening config file: " err)
  | .ok text =>
    match decodeConfig text with
    | .error err => .error (.wrap "decoding config: " (.json err))
    | .ok config => .ok config

/-- The JSON encoding of the struct of the two credentials, with the keys
`username` and `password` of its struct tags. -/
def credentialsText (username password : String) : String :=
  "\x7b\"username\":" ++ quote username ++ ",\"password\":" ++ quote password ++ "\x7d"

/-- The call `json.Marshal` of `login` on the struct of the two credentials.
Marshalling two strings cannot fail. -/
def marshalCredentials (username password : String) : Except GoError String :=
  .ok (credentialsText username password)

/-- The function `login`, with the upstream calls it makes. -/
def login (w : World) (url username password : String) :
    Except GoError (List Cookie) × List Call :=
  match marshalCredentials username password with
  | .error err => (.error (.wrap "marshalling credentials: " err), [])
  | .ok credentials =>
    match w.post (url ++ "/api/login") "application/json" credentials with
    | .error err =>
      (.error (.wrap "logging in : " err),
        [.post (url ++ "/api/login") "application/json" credentials])
    | .ok resp =>
      if resp.StatusCode ≠ 200 then
        (.error (.msg ("login unsuccessful " ++ resp.Body)),
          [.post (url ++ "/api/login") "application/json" credentials])
      else (.ok resp.Cookies, [.post (url ++ "/api/login") "application/json" credentials])

/-- The call `decoder.Decode(&object)` of `getDeviceList` on a body holding
`text`, `object.Data` being the empty slice `make([]*device, 0)`. -/
def decodeObject (text : String) : Except JsonError deviceSlice :=
  match readValue text with
  | .error e => .error e
  | .ok j => storeObject ⟨[], []⟩ j

/-- The function `getDeviceList`, with the upstream calls it makes.  A nil
`*device` in the result is `none`. -/
def getDeviceList (w : World) (cookies : List Cookie) (url site : String) :
    Except GoError (List (Option device)) × List Call :=
  match newRequest w "GET" (url ++ "/api/s/" ++ site ++ "/stat/device") with
  | .error err => (.error (.wrap "getting device list creating request: " err), [])
  | .ok request =>
    match w.send (cookies.foldl Request.AddCookie request) with
    | .error err =>
      (.error (.wrap "requesting device list: " err),
        [.send (cookies.foldl Request.AddCookie request)])
    | .ok response =>
      if response.StatusCode ≠ 200 then
        (.error (.msg "non okay status code getting device list"),
          [.send (cookies.foldl Request.AddCookie request)])
      else
        match decodeObject response.Body with
        | .error err =>
          (.error (.wrap "decoding device list: " (.json err)),
            [.send (cookies.foldl Request.AddCookie request)])
        | .ok object => (.ok object.elems, [.send (cookies.foldl Request.AddCookie request)])

/-- The entry the handler builds for one device. -/
def entryOf (cfg : config) (device : device) : promSDEntry :=
  { Targets := some [cfg.BlackboxURL ++ "/probe?module=icmp&target=" ++ device.Ip],
    Labels := some [("ip", device.Ip), ("name", device.Name), ("type", device.Type_),
      ("model", device.Model)] }

/-- The handler's loop `for i, device := range devices { promSd[i] = ... }`
from index `i` on.  Reading a field through a nil `*device` panics, which is
`none`. -/
def transformLoop (cfg : config) :
    Nat → List (Option device) → List promSDEntry → Option (List promSDEntry)
  | _, [], promSd => some promSd
  | _, none :: _, _ => none
  | i, some device :: rest, promSd =>
    transformLoop cfg (i + 1) rest (promSd.set i (entryOf cfg device))

/-- The handler's transformation: `promSd := make([]promSDEntry, len(devices))`
followed by the loop. -/
def transform (cfg : config) (devices : List (Option device)) : Option (List promSDEntry) :=
  transformLoop cfg 0 devices (List.replicate devices.length promSDEntry.zero)

/-- The method `(*json.Encoder).Encode` on the response writer: the JSON
encoding of the value followed by a newline character is handed to `Write`
in one call, whose error is the result.  The second component is the text
handed to `Write`. -/
def Encode (w : World) (promSd : List promSDEntry) : Except GoError Unit × List String :=
  (w.write (marshalEntries promSd ++ "\n"), [marshalEntries promSd ++ "\n"])

/-- How the handling of one request ends. -/
inductive Outcome where
  /-- The handler returned and the server completes the response. -/
  | returned : Outcome
  /-- The call `log.Fatal(err)` or `log.Fatalf(pfx + "%v", err)`: the error
  is logged and the whole process exits with status 1. -/
  | fatal (pfx : String) (err : GoError) : Outcome
  /-- A run-time panic in the handler (a nil pointer dereference): its
  goroutine stops and no response body is produced. -/
  | panicked : Outcome
deriving DecidableEq, Repr

/-- Everything observable about the handling of one request. -/
structure Handled where
  outcome : Outcome
  /-- Response headers set by the handler. -/
  header : List (String × String)
  /-- The response status once it is fixed: the first `Write` fixes it to
  200, as the handler never calls `WriteHeader`. -/
  status : Option Nat
  /-- The texts handed to `Write` on the response, in order. -/
  written : List String
  /-- The upstream calls made, in order. -/
  calls : List Call
deriving DecidableEq, Repr

/-- The request handler registered by `main` for `/`. -/
def handler (cfg : config) (w : World) : Handled :=
  match login w cfg.UnifiURL cfg.Username cfg.Password with
  | (.error err, calls) =>
    ⟨.fatal "" err, [("Content-Type", "application/json")], none, [], calls⟩
  | (.ok cookies, calls) =>
    match getDeviceList w cookies cfg.UnifiURL cfg.Site with
    | (.error err, calls1) =>
      ⟨.fatal "" err, [("Content-Type", "application/json")], none, [], calls ++ calls1⟩
    | (.ok devices, calls1) =>
      match transform cfg devices with
      | none => ⟨.panicked, [("Content-Type", "application/json")], none, [], calls ++ calls1⟩
      | some promSd =>
        match Encode w promSd with
        | (.error err, written) =>
          ⟨.fatal "encoding prometheus service discover entries: " err,
            [("Content-Type", "application/json")], some 200, written, calls ++ calls1⟩
        | (.ok _, written) =>
          ⟨.returned, [("Content-Type", "application/json")], some 200, written,
            calls ++ calls1⟩

/-! ## The documents of the external interfaces -/

/-- The JSON object of one inventory element with the four fields `Name`,
`Ip`, `Type` and `Model` of a device. -/
def deviceDoc (d : device) : Json :=
  .obj [("Name", .str d.Name), ("Ip", .str d.Ip), ("Type", .str d.Type_),
    ("Model", .str d.Model)]

/-- The members of the configuration document: the seven fields under their
documented keys, the port as a decimal integer literal. -/
def configMembers (c : config) : List (String × Json) :=
  [("unifi_url", .str c.UnifiURL), ("blackbox_url", .str c.BlackboxURL), ("Site", .str c.Site),
    ("Username", .str c.Username), ("Password", .str c.Password),
    ("listen_port", .num (toString c.ListenPort)), ("insecure_https", .bool c.InsecureHttps)]

/-- The configuration file a JSON writer produces for a configuration (the
output of `json.Marshal` on the `config` struct): the seven fields under their
keys in declaration order, without white space. -/
def configText (c : config) : String :=
  "\x7b\"unifi_url\":" ++ quote c.UnifiURL ++ ",\"blackbox_url\":" ++ quote c.BlackboxURL
    ++ ",\"Site\":" ++ quote c.Site ++ ",\"Username\":" ++ quote c.Username
    ++ ",\"Password\":" ++ quote c.Password ++ ",\"listen_port\":" ++ toString c.ListenPort
    ++ ",\"insecure_https\":" ++ (if c.InsecureHttps then "true" else "false") ++ "\x7d"

/-- The configuration in which the fields with a key in `seen` have the
values of `c` and the others are zero: the state of the decoder's target
after the members with those keys have been stored. -/
def partialConfig (c : config) (seen : String → Bool) : config :=
  { UnifiURL := if seen "unifi_url" then c.UnifiURL else ""
    BlackboxURL := if seen "blackbox_url" then c.BlackboxURL else ""
    Site := if seen "Site" then c.Site else ""
    Username := if seen "Username" then c.Username else ""
    Password := if seen "Password" then c.Password else ""
    ListenPort := if seen "listen_port" then c.ListenPort else 0
    InsecureHttps := if seen "insecure_https" then c.InsecureHttps else false }

/-- The inventory document `{"Data": [...]}` listing the given devices. -/
def inventoryDoc (ds : List device) : Json :=
  .obj [("Data", .arr (ds.map deviceDoc))]

/-- The text of the device field `name` that the members of an inventory
element give, read in the words of the interface: the string of the last
member whose key is `name` up to case, `cur` when there is none (a member
holding `null` does not count), and nothing when such a member holds
anything but a string or `null`. -/
def fieldText (name : String) : String → List (String × Json) → Option String
  | cur, [] => some cur
  | cur, (key, v) :: rest =>
    if equalFold name key then
      match v with
      | .str s => fieldText name s rest
      | .null => fieldText name cur rest
      | _ => none
    else fieldText name cur rest

/-- The device that the members of an inventory element describe, starting
from `cur`: its four fields read by `fieldText`. -/
def membersDevice (cur : device) (members : List (String × Json)) : Option device :=
  match fieldText "Name" cur.Name members, fieldText "Ip" cur.Ip members,
    fieldText "Type" cur.Type_ members, fieldText "Model" cur.Model members with
  | some n, some i, some t, some m => some ⟨n, i, t, m⟩
  | _, _, _, _ => none

/-- The device of one element of the `Data` list: no device (a nil pointer)
for `null`, the device its members describe for an object, and nothing for
any other value. -/
def elementDevice : Json → Option (Option device)
  | .null => some none
  | .obj members => (membersDevice device.zero members).map some
  | _ => none

/-- The devices of the elements of a `Data` list, in the order they appear. -/
def listDevices : List Json → Option (List (Option device))
  | [] => some []
  | j :: js =>
    match elementDevice j, listDevices js with
    | some d, some ds => some (d :: ds)
    | _, _ => none

/-- The members of an object whose key is `Data` up to case. -/
def dataMembers (members : List (String × Json)) : List (String × Json) :=
  members.filter fun m => equalFold "Data" m.1

/-- The devices of the body's `Data` list, for a body whose value has at most
one `Data` member: the devices of that member's list in order; the empty list
when the body is `null`, has no `Data` member or has `null` there; nothing
when the body or the member or an element has another shape. -/
def bodyDevices : Json → Option (List (Option device))
  | .null => some []
  | .obj members =>
    match dataMembers members with
    | [] => some []
    | [(_, .null)] => some []
    | [(_, .arr elems)] => listDevices elems
    | _ => none
  | _ => none

/-- The text a JSON writer produces for one inventory element (the output of
`json.Marshal` on a `device`). -/
def deviceText (d : device) : String :=
  "\x7b\"Name\":" ++ quote d.Name ++ ",\"Ip\":" ++ quote d.Ip ++ ",\"Type\":" ++ quote d.Type_
    ++ ",\"Model\":" ++ quote d.Model ++ "\x7d"

/-- The inventory body a JSON writer produces for the given devices. -/
def inventoryText (ds : List device) : String :=
  "\x7b\"Data\":[" ++ commaJoin (ds.map deviceText) ++ "]\x7d"

/-! ## A concrete controller, for evaluating the program -/

/-- The first check of `net/url.Parse`: a URL that contains an ASCII control
character is rejected. -/
def rejectControl (raw : String) : Except GoError Unit :=
  if raw.data.any (fun c => c.toNat < 0x20 || c.toNat == 0x7f) then
    .error (.url "parse" raw (.msg "net/url: invalid control character in URL"))
  else .ok ()

/-- A configuration. -/
def sampleConfig : config :=
  { UnifiURL := "https://unifi:8443", BlackboxURL := "http://blackbox:9115",
    Site := "default", Username := "admin", Password := "secret",
    ListenPort := 9100, InsecureHttps := false }

/-- The session cookies the sample controller issues. -/
def sampleCookies : List Cookie := [⟨"unifises", "k8s2"⟩, ⟨"csrf_token", "Xy7"⟩]

/-- A controller that accepts every login with status 200 and the two sample
cookies, and answers every device listing with status 200 and the given body.
The configuration file holds the sample configuration and the response
stream accepts every write. -/
def sampleWorld (inventory : String) : World :=
  { readFile := fun _ =>
      .ok ("\x7b\"unifi_url\": \"https://unifi:8443\", \"blackbox_url\": \"http://blackbox:9115\", "
        ++ "\"Site\": \"default\", \"Username\": \"admin\", \"Password\": \"secret\", "
        ++ "\"listen_port\": 9100, \"insecure_https\": false\x7d")
    post := fun _ _ _ => .ok ⟨200, sampleCookies, ""⟩
    parseURL := rejectControl
    send := fun _ => .ok ⟨200, [], inventory⟩
    write := fun _ => .ok () }

/-- A controller that refuses every login with status 401 and the given
body. -/
def refusingWorld (body : String) : World :=
  { sampleWorld "" with post := fun _ _ _ => .ok ⟨401, [], body⟩ }

/-- An access point in the inventory. -/
def sampleDevice : device := ⟨"ap-hall", "10.0.0.2", "uap", "U7LT"⟩

/-- An inventory body listing the sample access point. -/
def sampleInventory : String :=
  "\x7b\"Data\": [\x7b\"Name\": \"ap-hall\", \"Ip\": \"10.0.0.2\", \"Type\": \"uap\", "
    ++ "\"Model\": \"U7LT\"\x7d]\x7d"


/-- The sample controller on a later login: it answers as before but issues a
different session cookie. -/
def laterSessionWorld (inventory : String) : World :=
  { sampleWorld inventory with post := fun _ _ _ => .ok ⟨200, [⟨"unifises", "Qm41"⟩], ""⟩ }

/-- The sample controller in front of a client that has gone away: every
write on the response stream fails. -/
def brokenPipeWorld (inventory : String) : World :=
  { sampleWorld inventory with write := fun _ => .error (.msg "write: broken pipe") }

/-- The sample configuration with a line break at the end of the site name. -/
def lineBreakConfig : config := { sampleConfig with Site := "default\n" }

/-- An inventory body as a controller sends it: lower-case keys, members the
program does not read, and one cleared element. -/
def controllerInventory : String :=
  "\x7b\"meta\": \x7b\"rc\": \"ok\"\x7d, \"data\": [\x7b\"ip\": \"10.0.0.2\", \"adopted\": true, "
    ++ "\"name\": \"ap-hall\", \"type\": \"uap\", \"model\": \"U7LT\"\x7d, null]\x7d"
/-! ## Auxiliary facts -/

theorem transformLoop_some (cfg : config) (ds : List device) :
    ∀ (pre post : List promSDEntry), post.length = ds.length →
      transformLoop cfg pre.length (ds.map some) (pre ++ post)
        = some (pre ++ ds.map (entryOf cfg)) := by
  induction ds with
  | nil =>
    intro pre post h
    have : post = [] := List.length_eq_zero.mp h
    simp [transformLoop, this]
  | cons d ds ih =>
    intro pre post h
    match post, h with
    | p :: post1, h =>
      have hlen : post1.length = ds.length := by simpa using h
      have hset : (pre ++ p :: post1).set pre.length (entryOf cfg d)
          = (pre ++ [entryOf cfg d]) ++ post1 := by
        simp
      have ih1 := ih (pre ++ [entryOf cfg d]) post1 hlen
      simp only [List.length_append, List.length_singleton] at ih1
      simp only [List.map_cons, transformLoop, hset, ih1]
      simp

theorem transform_map_some (cfg : config) (ds : List device) :
    transform cfg (ds.map some) = some (ds.map (entryOf cfg)) := by
  have h := transformLoop_some cfg ds [] (List.replicate ds.length promSDEntry.zero) (by simp)
  simpa [transform] using h

theorem handler_login_error (cfg : config) (w : World) (err : GoError)
    (hl : (login w cfg.UnifiURL cfg.Username cfg.Password).1 = .error err) :
    handler cfg w = ⟨.fatal "" err, [("Content-Type", "application/json")], none, [],
      (login w cfg.UnifiURL cfg.Username cfg.Password).2⟩ := by
  unfold handler
  generalize login w cfg.UnifiURL cfg.Username cfg.Password = l at hl
  obtain ⟨r, c⟩ := l
  simp only at hl
  subst hl
  rfl

theorem handler_fetch_error (cfg : config) (w : World) (cookies : List Cookie) (err : GoError)
    (hl : (login w cfg.UnifiURL cfg.Username cfg.Password).1 = .ok cookies)
    (hf : (getDeviceList w cookies cfg.UnifiURL cfg.Site).1 = .error err) :
    handler cfg w = ⟨.fatal "" err, [("Content-Type", "application/json")], none, [],
      (login w cfg.UnifiURL cfg.Username cfg.Password).2
        ++ (getDeviceList w cookies cfg.UnifiURL cfg.Site).2⟩ := by
  unfold handler
  generalize login w cfg.UnifiURL cfg.Username cfg.Password = l at hl
  obtain ⟨r, c⟩ := l
  simp only at hl
  subst hl
  simp only
  generalize getDeviceList w cookies cfg.UnifiURL cfg.Site = g at hf
  obtain ⟨r1, c1⟩ := g
  simp only at hf
  subst hf
  rfl

theorem handler_fetch_ok (cfg : config) (w : World) (cookies : List Cookie)
    (devices : List (Option device))
    (hl : (login w cfg.UnifiURL cfg.Username cfg.Password).1 = .ok cookies)
    (hf : (getDeviceList w cookies cfg.UnifiURL cfg.Site).1 = .ok devices) :
    handler cfg w =
      match transform cfg devices with
      | none => ⟨.panicked, [("Content-Type", "application/json")], none, [],
          (login w cfg.UnifiURL cfg.Username cfg.Password).2
            ++ (getDeviceList w cookies cfg.UnifiURL cfg.Site).2⟩
      | some promSd =>
        match w.write (marshalEntries promSd ++ "\n") with
        | .error err =>
          ⟨.fatal "encoding prometheus service discover entries: " err,
            [("Content-Type", "application/json")], some 200,
            [marshalEntries promSd ++ "\n"],
            (login w cfg.UnifiURL cfg.Username cfg.Password).2
              ++ (getDeviceList w cookies cfg.UnifiURL cfg.Site).2⟩
        | .ok _ =>
          ⟨.returned, [("Content-Type", "application/json")], some 200,
            [marshalEntries promSd ++ "\n"],
            (login w cfg.UnifiURL cfg.Username cfg.Password).2
              ++ (getDeviceList w cookies cfg.UnifiURL cfg.Site).2⟩ := by
  unfold handler
  generalize login w cfg.UnifiURL cfg.Username cfg.Password = l at hl
  obtain ⟨r, c⟩ := l
  simp only at hl
  subst hl
  simp only
  generalize getDeviceList w cookies cfg.UnifiURL cfg.Site = g at hf
  obtain ⟨r1, c1⟩ := g
  simp only at hf
  subst hf
  simp only
  cases transform cfg devices with
  | none => rfl
  | some promSd =>
    simp only [Encode]
    cases w.write (marshalEntries promSd ++ "\n") <;> rfl

theorem getDeviceList_of_response (w : World) (cookies : List Cookie) (url site : String)
    (resp : Response)
    (hu : w.parseURL (url ++ "/api/s/" ++ site ++ "/stat/device") = .ok ())
    (hs : w.send (cookies.foldl Request.AddCookie
            ⟨"GET", url ++ "/api/s/" ++ site ++ "/stat/device", []⟩) = .ok resp) :
    (getDeviceList w cookies url site).1 =
      if resp.StatusCode ≠ 200 then .error (.msg "non okay status code getting device list")
      else
        match decodeObject resp.Body with
        | .error err => .error (.wrap "decoding device list: " (.json err))
        | .ok object => .ok object.elems := by
  simp only [getDeviceList, newRequest, hu, hs]
  by_cases h : resp.StatusCode = 200
  · simp only [h, ne_eq, not_true_eq_false, if_false]
    cases decodeObject resp.Body <;> rfl
  · simp [h]

theorem getDeviceList_calls_of_sent (w : World) (cookies : List Cookie) (url site : String)
    (hu : w.parseURL (url ++ "/api/s/" ++ site ++ "/stat/device") = .ok ()) :
    (getDeviceList w cookies url site).2 =
      [.send (cookies.foldl Request.AddCookie
        ⟨"GET", url ++ "/api/s/" ++ site ++ "/stat/device", []⟩)] := by
  simp only [getDeviceList, newRequest, hu]
  cases w.send (cookies.foldl Request.AddCookie
      ⟨"GET", url ++ "/api/s/" ++ site ++ "/stat/device", []⟩) with
  | error e => rfl
  | ok resp =>
    by_cases h : resp.StatusCode = 200
    · simp only [h, ne_eq, not_true_eq_false, if_false]
      cases decodeObject resp.Body <;> rfl
    · simp [h]

theorem storeDevice_deviceDoc (cur d : device) : storeDevice cur (deviceDoc d) = .ok d := by
  cases d
  simp [storeDevice, deviceDoc, storeMembers, findField, device.fieldNames, device.set,
    storeString, Except.map]

theorem storeElems_deviceDoc (ds : List device) :
    ∀ backing : List (Option device),
      storeElems backing (ds.map deviceDoc) = .ok (ds.map some) := by
  induction ds with
  | nil => intro backing; rfl
  | cons d ds ih =>
    intro backing
    have hp : storeDevicePtr (backing.headD none) (deviceDoc d) = .ok (some d) := by
      show (storeDevice ((backing.headD none).getD device.zero) (deviceDoc d)).map some = _
      rw [storeDevice_deviceDoc]
      rfl
    simp only [List.map_cons, storeElems, hp, ih]

theorem storeObject_inventoryDoc (ds : List device) :
    ∃ spare, storeObject ⟨[], []⟩ (inventoryDoc ds) = .ok ⟨ds.map some, spare⟩ := by
  cases ds with
  | nil => exact ⟨[], by simp [storeObject, inventoryDoc, storeMembers, findField, storeSlice]⟩
  | cons d ds =>
    refine ⟨[], ?_⟩
    have h := storeElems_deviceDoc (d :: ds) []
    simp only [List.map_cons] at h
    simp [storeObject, inventoryDoc, storeMembers, findField, storeSlice, h]

theorem foldl_AddCookie (cookies : List Cookie) :
    ∀ (method url : String) (init : List Cookie),
      cookies.foldl Request.AddCookie ⟨method, url, init⟩ = ⟨method, url, init ++ cookies⟩ := by
  induction cookies with
  | nil => intro m u init; simp
  | cons c cs ih => intro m u init; simp [Request.AddCookie, ih]

theorem login_calls (w : World) (url username password : String) :
    (login w url username password).2 =
      [.post (url ++ "/api/login") "application/json"
        (credentialsText username password)] := by
  simp only [login, marshalCredentials]
  cases w.post (url ++ "/api/login") "application/json"
      (credentialsText username password) with
  | error e => rfl
  | ok resp => by_cases h : resp.StatusCode = 200 <;> simp [h]

theorem login_ok_response (w : World) (url username password : String) (cookies : List Cookie)
    (hl : (login w url username password).1 = .ok cookies) :
    ∃ resp, w.post (url ++ "/api/login") "application/json"
        (credentialsText username password)
      = .ok resp ∧ resp.StatusCode = 200 ∧ resp.Cookies = cookies := by
  simp only [login, marshalCredentials] at hl
  cases hp : w.post (url ++ "/api/login") "application/json"
      (credentialsText username password) with
  | error e => simp [hp] at hl
  | ok resp =>
    by_cases h : resp.StatusCode = 200
    · simp only [hp, h, ne_eq, not_true_eq_false, if_false] at hl
      exact ⟨resp, rfl, h, by simpa using hl⟩
    · simp [hp, h] at hl


theorem digitChar_isDigit (d : Nat) (h : d < 10) :
    (Nat.digitChar d).isDigit = true ∧ (Nat.digitChar d).toNat - 48 = d := by
  interval_cases d <;> exact ⟨by decide, by decide⟩

theorem toDigitsCore_spec : ∀ (fuel n : Nat) (ds : List Char), n < fuel →
    ∃ L : List Char, Nat.toDigitsCore 10 fuel n ds = L ++ ds ∧ L ≠ []
      ∧ L.all Char.isDigit = true
      ∧ ∀ acc, L.foldl (fun a c => a * 10 + (c.toNat - 48)) acc = acc * 10 ^ L.length + n := by
  intro fuel
  induction fuel with
  | zero => intro n ds h; omega
  | succ fuel ih =>
    intro n ds h
    obtain ⟨hd1, hd2⟩ := digitChar_isDigit (n % 10) (Nat.mod_lt _ (by decide))
    by_cases h0 : n / 10 = 0
    · refine ⟨[Nat.digitChar (n % 10)], by simp [Nat.toDigitsCore, h0], by simp, by simp [hd1], ?_⟩
      intro acc
      simp only [List.foldl, hd2, List.length_singleton, pow_one]
      omega
    · obtain ⟨L, hL, hne, hall, hval⟩ := ih (n / 10) (Nat.digitChar (n % 10) :: ds) (by omega)
      refine ⟨L ++ [Nat.digitChar (n % 10)], by simp [Nat.toDigitsCore, h0, hL], by simp, ?_, ?_⟩
      · simp [List.all_append, hall, hd1]
      · intro acc
        simp only [List.foldl_append, hval, List.foldl, hd2, List.length_append,
          List.length_singleton, pow_succ]
        have := Nat.div_add_mod n 10
        nlinarith [Nat.div_add_mod n 10]

theorem parseUint_toString (n : Nat) (h : n < 2 ^ uintSize) : parseUint (toString n) = some n := by
  obtain ⟨L, hL, hne, hall, hval⟩ := toDigitsCore_spec (n + 1) n [] (by omega)
  have hdata : (toString n).data = L := by
    show (Nat.repr n).data = L
    simp [Nat.repr, Nat.toDigits, hL, List.asString]
  have hv := hval 0
  simp only [zero_mul, zero_add] at hv
  unfold parseUint
  rw [hdata]
  simp [hne, hall, hv, h]



theorem store_configMember (c : config) (hport : c.ListenPort < 2 ^ uintSize)
    (seen : String → Bool) (m : String × Json) (hm : m ∈ configMembers c) :
    findField config.fieldNames m.1 = some m.1
    ∧ config.set (partialConfig c seen) m.1 m.2
        = .ok (partialConfig c (fun k => k == m.1 || seen k)) := by
  have hp := parseUint_toString c.ListenPort hport
  simp only [configMembers, List.mem_cons, List.mem_singleton, List.not_mem_nil, or_false] at hm
  rcases hm with h | h | h | h | h | h | h <;> subst h <;>
    refine ⟨by rfl, ?_⟩ <;>
    simp [config.set, storeString, storeUint, storeBool, partialConfig, Except.map, hp]

theorem storeMembers_configMembers (c : config) (hport : c.ListenPort < 2 ^ uintSize) :
    ∀ (ms : List (String × Json)) (seen : String → Bool),
      (∀ m ∈ ms, m ∈ configMembers c) →
      storeMembers config.fieldNames config.set (partialConfig c seen) ms
        = .ok (partialConfig c (fun k => ms.any (fun m => k == m.1) || seen k)) := by
  intro ms
  induction ms with
  | nil => intro seen _; simp [storeMembers]
  | cons m ms ih =>
    intro seen hms
    obtain ⟨hf, hs⟩ := store_configMember c hport seen m (hms m (List.mem_cons_self _ _))
    obtain ⟨k, v⟩ := m
    simp only at hf hs
    simp only [storeMembers, hf, hs]
    rw [ih _ (fun m hm => hms m (List.mem_cons_of_mem _ hm))]
    congr 2
    funext k1
    simp only [List.any_cons]
    cases (k1 == k) <;> cases (ms.any fun m => k1 == m.1) <;> simp

theorem storeConfig_configMembers (c : config) (hport : c.ListenPort < 2 ^ uintSize)
    (members : List (String × Json)) (hperm : members.Perm (configMembers c)) :
    storeConfig config.zero (.obj members) = .ok c := by
  have hz : config.zero = partialConfig c (fun _ => false) := by
    simp [config.zero, partialConfig]
  have hall : ∀ m ∈ configMembers c, members.any (fun x => m.1 == x.1) = true := by
    intro m hm
    exact List.any_eq_true.mpr ⟨m, hperm.mem_iff.mpr hm, by simp⟩
  simp only [storeConfig]
  rw [hz, storeMembers_configMembers c hport members _ (fun m hm => hperm.mem_iff.mp hm)]
  have h1 := hall ("unifi_url", .str c.UnifiURL) (by simp [configMembers])
  have h2 := hall ("blackbox_url", .str c.BlackboxURL) (by simp [configMembers])
  have h3 := hall ("Site", .str c.Site) (by simp [configMembers])
  have h4 := hall ("Username", .str c.Username) (by simp [configMembers])
  have h5 := hall ("Password", .str c.Password) (by simp [configMembers])
  have h6 := hall ("listen_port", .num (toString c.ListenPort)) (by simp [configMembers])
  have h7 := hall ("insecure_https", .bool c.InsecureHttps) (by simp [configMembers])
  simp only at h1 h2 h3 h4 h5 h6 h7
  simp [partialConfig, h1, h2, h3, h4, h5, h6, h7]



theorem hexVal_hexDigit (k : Nat) (h : k < 16) : hexVal (hexDigit k) = some k := by
  interval_cases k <;> rfl

theorem getu4_low (n : Nat) (h : n < 256) :
    getu4 '0' '0' (hexDigit (n / 16)) (hexDigit (n % 16)) = some n := by
  have h0 : hexVal '0' = some 0 := rfl
  simp only [getu4, h0, hexVal_hexDigit (n / 16) (by omega),
    hexVal_hexDigit (n % 16) (Nat.mod_lt _ (by decide))]
  congr 1
  omega

theorem scanString_escaped_low (c : Char) (h : c.toNat < 256) (f : Nat) (tail : List Char) :
    scanString (f + 1)
        ('\\' :: 'u' :: '0' :: '0' :: hexDigit (c.toNat / 16) :: hexDigit (c.toNat % 16) :: tail)
      = (scanString f tail).map (fun r => (c :: r.1, r.2)) := by
  have hc : Char.ofNat c.toNat = c := Char.ofNat_toNat c
  have h1 : ¬ (0xD800 ≤ c.toNat ∧ c.toNat < 0xDC00) := by omega
  have h2 : ¬ (0xDC00 ≤ c.toNat ∧ c.toNat < 0xE000) := by omega
  simp only [scanString, getu4_low c.toNat h]
  simp [h1, h2, hc]

theorem scanString_quoteChar (c : Char) (f : Nat) (tail : List Char) :
    scanString (f + 1) (quoteChar c ++ tail)
      = (scanString f tail).map (fun r => (c :: r.1, r.2)) := by
  unfold quoteChar
  split_ifs with h1 h2 h3 h4 h5 h6 h7 h8
  · rcases h1 with h | h <;> subst h <;> simp [scanString, unescape]
  · subst h2; simp [scanString, unescape]
  · subst h3; simp [scanString, unescape]
  · subst h4; simp [scanString, unescape]
  · subst h5; simp [scanString, unescape]
  · subst h6; simp [scanString, unescape]
  · have hlt : c.toNat < 256 := by
      rcases h7 with h | h | h | h
      · omega
      · subst h; decide
      · subst h; decide
      · subst h; decide
    exact scanString_escaped_low c hlt f tail
  · rcases h8 with h | h <;> subst h <;> simp [scanString, getu4, hexVal, hexDigit]
  · have hq : c ≠ '"' := fun h => h1 (Or.inl h)
    have hb : c ≠ '\\' := fun h => h1 (Or.inr h)
    have hl : ¬ c.toNat < 0x20 := fun h => h7 (Or.inl h)
    simp [scanString, hq, hb, hl]

theorem scanString_quoteChars (s : List Char) :
    ∀ (fuel : Nat) (rest : List Char), s.length < fuel →
      scanString fuel (quoteChars s ++ '"' :: rest) = some (s, rest) := by
  induction s with
  | nil =>
    intro fuel rest h
    obtain ⟨f, rfl⟩ : ∃ f, fuel = f + 1 := ⟨fuel - 1, by simp at h; omega⟩
    simp [quoteChars, scanString]
  | cons c s ih =>
    intro fuel rest h
    obtain ⟨f, rfl⟩ : ∃ f, fuel = f + 1 := ⟨fuel - 1, by simp at h; omega⟩
    simp only [quoteChars, List.append_assoc]
    rw [scanString_quoteChar, ih f rest (by simpa using h)]
    rfl

theorem length_le_quoteChars (s : List Char) : s.length ≤ (quoteChars s).length := by
  induction s with
  | nil => simp [quoteChars]
  | cons c s ih =>
    have : 1 ≤ (quoteChar c).length := by
      unfold quoteChar
      split_ifs <;> simp
    simp only [quoteChars, List.length_append, List.length_cons]
    omega

theorem skipSpace_cons_of_not_space (c : Char) (cs : List Char) (h : isSpace c = false) :
    skipSpace (c :: cs) = c :: cs := by
  simp [skipSpace, h]

theorem parseValue_string (f d : Nat) (s rest : List Char) :
    parseValue (f + 1) d ('"' :: (quoteChars s ++ '"' :: rest))
      = some (.str (String.mk s), rest) := by
  have hlen := length_le_quoteChars s
  rw [parseValue, skipSpace_cons_of_not_space _ _ (by rfl)]
  dsimp only
  rw [if_neg (by decide), if_neg (by decide), if_pos rfl,
    scanString_quoteChars s _ rest (by simp only [List.length_append]; omega)]
  rfl

theorem parseMembers_string_more (f d : Nat) (k v rest : List Char) :
    parseMembers (f + 2) d
        ('"' :: (quoteChars k ++ '"' :: ':' :: '"' :: (quoteChars v ++ '"' :: ',' :: rest)))
      = (parseMembers (f + 1) d rest).map
          (fun t => ((String.mk k, .str (String.mk v)) :: t.1, t.2)) := by
  have hlen := length_le_quoteChars k
  rw [parseMembers, skipSpace_cons_of_not_space _ _ (by rfl)]
  simp only
  rw [scanString_quoteChars k _ _ (by simp only [List.length_append]; omega)]
  simp only [skipSpace_cons_of_not_space ':' _ (by rfl), parseValue_string,
    skipSpace_cons_of_not_space ',' _ (by rfl), skipSpace_cons_of_not_space '}' _ (by rfl)]

theorem parseMembers_string_last (f d : Nat) (k v rest : List Char) :
    parseMembers (f + 2) d
        ('"' :: (quoteChars k ++ '"' :: ':' :: '"' :: (quoteChars v ++ '"' :: '}' :: rest)))
      = some ([(String.mk k, .str (String.mk v))], rest) := by
  have hlen := length_le_quoteChars k
  rw [parseMembers, skipSpace_cons_of_not_space _ _ (by rfl)]
  simp only
  rw [scanString_quoteChars k _ _ (by simp only [List.length_append]; omega)]
  simp only [skipSpace_cons_of_not_space ':' _ (by rfl), parseValue_string,
    skipSpace_cons_of_not_space ',' _ (by rfl), skipSpace_cons_of_not_space '}' _ (by rfl)]

theorem readValue_credentials (username password : String) :
    readValue (credentialsText username password)
      = .ok (.obj [("username", .str username), ("password", .str password)]) := by
  have hdata : (credentialsText username password).data
      = '{' :: '"' :: (quoteChars "username".data ++ '"' :: ':' :: '"' ::
          (quoteChars username.data ++ '"' :: ',' :: '"' ::
            (quoteChars "password".data ++ '"' :: ':' :: '"' ::
              (quoteChars password.data ++ '"' :: '}' :: [])))) := by
    have h1 : quoteChars "username".data = "username".data := by rfl
    have h2 : quoteChars "password".data = "password".data := by rfl
    rw [h1, h2]
    simp [credentialsText, String.data_append, quote]
  have hparse : ∀ f, parseValue (f + 4) 0
      ('{' :: '"' :: (quoteChars "username".data ++ '"' :: ':' :: '"' ::
          (quoteChars username.data ++ '"' :: ',' :: '"' ::
            (quoteChars "password".data ++ '"' :: ':' :: '"' ::
              (quoteChars password.data ++ '"' :: '}' :: [])))))
      = some (.obj [("username", .str username), ("password", .str password)], []) := by
    intro f
    rw [parseValue, skipSpace_cons_of_not_space _ _ (by rfl)]
    dsimp only
    rw [if_pos rfl, if_neg (by decide), skipSpace_cons_of_not_space _ _ (by rfl)]
    show Option.map _ (parseMembers (f + 3) (0 + 1) _) = _
    rw [parseMembers_string_more, parseMembers_string_last]
    rfl
  unfold readValue
  rw [hdata]
  obtain ⟨f, hf⟩ : ∃ f, 2 * ('{' :: '"' :: (quoteChars "username".data ++ '"' :: ':' :: '"' ::
          (quoteChars username.data ++ '"' :: ',' :: '"' ::
            (quoteChars "password".data ++ '"' :: ':' :: '"' ::
              (quoteChars password.data ++ '"' :: '}' :: []))))).length + 2 = f + 4 :=
    ⟨2 * ('{' :: '"' :: (quoteChars "username".data ++ '"' :: ':' :: '"' ::
          (quoteChars username.data ++ '"' :: ',' :: '"' ::
            (quoteChars "password".data ++ '"' :: ':' :: '"' ::
              (quoteChars password.data ++ '"' :: '}' :: []))))).length - 2, by
      simp only [List.length_cons]; omega⟩
  rw [hf, hparse f]


theorem handler_calls_of_login_ok (cfg : config) (w : World) (cookies : List Cookie)
    (hl : (login w cfg.UnifiURL cfg.Username cfg.Password).1 = .ok cookies) :
    (handler cfg w).calls
      = (login w cfg.UnifiURL cfg.Username cfg.Password).2
          ++ (getDeviceList w cookies cfg.UnifiURL cfg.Site).2 := by
  cases hf : (getDeviceList w cookies cfg.UnifiURL cfg.Site).1 with
  | error err => rw [handler_fetch_error cfg w cookies err hl hf]
  | ok devices =>
    rw [handler_fetch_ok cfg w cookies devices hl hf]
    cases transform cfg devices with
    | none => rfl
    | some promSd =>
      simp only
      cases w.write (marshalEntries promSd ++ "\n") <;> rfl


theorem digitChar_eq_zero (d : Nat) (h : d < 10) (h0 : Nat.digitChar d = '0') : d = 0 := by
  interval_cases d <;> first | rfl | (exact absurd h0 (by decide))

theorem toDigitsCore_head : ∀ (fuel n : Nat) (ds : List Char), n < fuel →
    ∃ (c : Char) (L : List Char), Nat.toDigitsCore 10 fuel n ds = c :: L ++ ds
      ∧ c.isDigit = true ∧ L.all Char.isDigit = true ∧ (c = '0' → n = 0 ∧ L = []) := by
  intro fuel
  induction fuel with
  | zero => intro n ds h; omega
  | succ fuel ih =>
    intro n ds h
    obtain ⟨hd1, _⟩ := digitChar_isDigit (n % 10) (Nat.mod_lt _ (by decide))
    by_cases h0 : n / 10 = 0
    · refine ⟨Nat.digitChar (n % 10), [], by simp [Nat.toDigitsCore, h0], hd1, rfl, ?_⟩
      intro hz
      have := digitChar_eq_zero (n % 10) (Nat.mod_lt _ (by decide)) hz
      exact ⟨by omega, rfl⟩
    · obtain ⟨c, L, hL, hc, hall, hz⟩ := ih (n / 10) (Nat.digitChar (n % 10) :: ds) (by omega)
      refine ⟨c, L ++ [Nat.digitChar (n % 10)], by simp [Nat.toDigitsCore, h0, hL], hc, ?_, ?_⟩
      · simp [List.all_append, hall, hd1]
      · intro hcz
        exact absurd (hz hcz).1 h0

theorem takeDigits_append (L : List Char) (hall : L.all Char.isDigit = true) (c : Char)
    (hc : c.isDigit = false) (rest : List Char) :
    takeDigits (L ++ c :: rest) = (L, c :: rest) := by
  induction L with
  | nil => simp [takeDigits, hc]
  | cons a L ih =>
    simp only [List.all_cons, Bool.and_eq_true] at hall
    simp [takeDigits, hall.1, ih hall.2]



theorem toString_data (n : Nat) :
    ∃ (c : Char) (L : List Char), toString n = String.mk (c :: L)
      ∧ c.isDigit = true ∧ L.all Char.isDigit = true ∧ (c = '0' → L = []) := by
  obtain ⟨c, L, hL, hc, hall, hz⟩ := toDigitsCore_head (n + 1) n [] (by omega)
  refine ⟨c, L, ?_, hc, hall, fun h => (hz h).2⟩
  show Nat.repr n = _
  simp [Nat.repr, Nat.toDigits, hL, List.asString]

theorem scanNumber_digits (c : Char) (L : List Char) (hc : c.isDigit = true)
    (hall : L.all Char.isDigit = true) (hz : c = '0' → L = []) (t : Char)
    (ht : t = ',' ∨ t = '}') (rest : List Char) :
    scanNumber (c :: (L ++ t :: rest)) = some (c :: L, t :: rest) := by
  have htd : t.isDigit = false := by rcases ht with h | h <;> subst h <;> rfl
  have hminus : c ≠ '-' := by rintro rfl; exact absurd hc (by decide)
  have hdot : t ≠ '.' := by rcases ht with h | h <;> subst h <;> decide
  have he : t ≠ 'e' := by rcases ht with h | h <;> subst h <;> decide
  have hE : t ≠ 'E' := by rcases ht with h | h <;> subst h <;> decide
  have hfrac : scanFrac (t :: rest) = some ([], t :: rest) := by
    unfold scanFrac
    split
    · rename_i heq
      simp only [List.cons.injEq] at heq
      exact absurd heq.1 hdot
    · rfl
  have hexp : scanExp (t :: rest) = some ([], t :: rest) := by
    simp [scanExp, he, hE]
  have hsigned : (match c :: (L ++ t :: rest) with
      | '-' :: r => (['-'], r)
      | _ => (([] : List Char), c :: (L ++ t :: rest))) = ([], c :: (L ++ t :: rest)) := by
    split
    · rename_i heq
      simp only [List.cons.injEq] at heq
      exact absurd heq.1 hminus
    · rfl
  unfold scanNumber
  simp only [hsigned]
  by_cases h0 : c = '0'
  · have hL := hz h0
    subst hL
    subst h0
    simp [scanInt, hfrac, hexp]
  · simp [scanInt, h0, hc, takeDigits_append L hall t htd rest, hfrac, hexp]

theorem parseValue_nat (f d n : Nat) (t : Char) (ht : t = ',' ∨ t = '}') (rest : List Char) :
    parseValue (f + 1) d ((toString n).data ++ t :: rest)
      = some (.num (toString n), t :: rest) := by
  obtain ⟨c, L, hs, hc, hall, hz⟩ := toString_data n
  have hsp : isSpace c = false := by
    cases hsp : isSpace c with
    | false => rfl
    | true =>
      simp only [isSpace, Bool.or_eq_true, beq_iff_eq] at hsp
      rcases hsp with ((h | h) | h) | h <;> subst h <;> exact absurd hc (by decide)
  have h1 : c ≠ '{' := by rintro rfl; exact absurd hc (by decide)
  have h2 : c ≠ '[' := by rintro rfl; exact absurd hc (by decide)
  have h3 : c ≠ '"' := by rintro rfl; exact absurd hc (by decide)
  have h4 : c ≠ 't' := by rintro rfl; exact absurd hc (by decide)
  have h5 : c ≠ 'f' := by rintro rfl; exact absurd hc (by decide)
  have h6 : c ≠ 'n' := by rintro rfl; exact absurd hc (by decide)
  rw [hs]
  show parseValue (f + 1) d (c :: (L ++ t :: rest)) = _
  rw [parseValue, skipSpace_cons_of_not_space c _ hsp]
  simp only [h1, h2, h3, h4, h5, h6, if_false, scanNumber_digits c L hc hall hz t ht rest]
  rfl



theorem parseMembers_nat_more (f d : Nat) (k : List Char) (n : Nat) (rest : List Char) :
    parseMembers (f + 2) d
        ('"' :: (quoteChars k ++ '"' :: ':' :: ((toString n).data ++ ',' :: rest)))
      = (parseMembers (f + 1) d rest).map
          (fun t => ((String.mk k, .num (toString n)) :: t.1, t.2)) := by
  have hlen := length_le_quoteChars k
  rw [parseMembers, skipSpace_cons_of_not_space _ _ (by rfl)]
  simp only
  rw [scanString_quoteChars k _ _ (by simp only [List.length_append]; omega)]
  simp only [skipSpace_cons_of_not_space ':' _ (by rfl), parseValue_nat f d n ',' (Or.inl rfl),
    skipSpace_cons_of_not_space ',' _ (by rfl)]

theorem parseMembers_bool_last (f d : Nat) (k : List Char) (b : Bool) (rest : List Char) :
    parseMembers (f + 2) d
        ('"' :: (quoteChars k ++ '"' :: ':' ::
          ((if b then "true" else "false").data ++ '}' :: rest)))
      = some ([(String.mk k, .bool b)], rest) := by
  have hlen := length_le_quoteChars k
  rw [parseMembers, skipSpace_cons_of_not_space _ _ (by rfl)]
  simp only
  rw [scanString_quoteChars k _ _ (by simp only [List.length_append]; omega)]
  simp only [skipSpace_cons_of_not_space ':' _ (by rfl)]
  cases b
  · have hv : parseValue (f + 1) d ("false".data ++ '}' :: rest)
        = some (.bool false, '}' :: rest) := by
      rw [parseValue]
      rfl
    simp only [Bool.false_eq_true, if_false, hv, skipSpace_cons_of_not_space '}' _ (by rfl)]
  · have hv : parseValue (f + 1) d ("true".data ++ '}' :: rest)
        = some (.bool true, '}' :: rest) := by
      rw [parseValue]
      rfl
    simp only [if_true, hv, skipSpace_cons_of_not_space '}' _ (by rfl)]

theorem readValue_configText (c : config) :
    readValue (configText c) = .ok (.obj (configMembers c)) := by
  have hdata : (configText c).data
      = '{' :: '"' :: (quoteChars "unifi_url".data ++ '"' :: ':' :: '"' ::
          (quoteChars c.UnifiURL.data ++ '"' :: ',' :: '"' ::
          (quoteChars "blackbox_url".data ++ '"' :: ':' :: '"' ::
          (quoteChars c.BlackboxURL.data ++ '"' :: ',' :: '"' ::
          (quoteChars "Site".data ++ '"' :: ':' :: '"' ::
          (quoteChars c.Site.data ++ '"' :: ',' :: '"' ::
          (quoteChars "Username".data ++ '"' :: ':' :: '"' ::
          (quoteChars c.Username.data ++ '"' :: ',' :: '"' ::
          (quoteChars "Password".data ++ '"' :: ':' :: '"' ::
          (quoteChars c.Password.data ++ '"' :: ',' :: '"' ::
          (quoteChars "listen_port".data ++ '"' :: ':' ::
          ((toString c.ListenPort).data ++ ',' :: '"' ::
          (quoteChars "insecure_https".data ++ '"' :: ':' ::
          ((if c.InsecureHttps then "true" else "false").data ++ '}' :: [])))))))))))))) := by
    have h1 : quoteChars "unifi_url".data = "unifi_url".data := by rfl
    have h2 : quoteChars "blackbox_url".data = "blackbox_url".data := by rfl
    have h3 : quoteChars "Site".data = "Site".data := by rfl
    have h4 : quoteChars "Username".data = "Username".data := by rfl
    have h5 : quoteChars "Password".data = "Password".data := by rfl
    have h6 : quoteChars "listen_port".data = "listen_port".data := by rfl
    have h7 : quoteChars "insecure_https".data = "insecure_https".data := by rfl
    rw [h1, h2, h3, h4, h5, h6, h7]
    simp [configText, String.data_append, quote]
  have hparse : ∀ f, parseValue (f + 9) 0 (configText c).data
      = some (.obj (configMembers c), []) := by
    intro f
    rw [hdata, parseValue, skipSpace_cons_of_not_space _ _ (by rfl)]
    dsimp only
    rw [if_pos rfl, if_neg (by decide), skipSpace_cons_of_not_space _ _ (by rfl)]
    show Option.map _ (parseMembers (f + 8) (0 + 1) _) = _
    rw [parseMembers_string_more, parseMembers_string_more, parseMembers_string_more,
      parseMembers_string_more, parseMembers_string_more, parseMembers_nat_more,
      parseMembers_bool_last]
    rfl
  unfold readValue
  obtain ⟨f, hf⟩ : ∃ f, 2 * (configText c).data.length + 2 = f + 9 :=
    ⟨2 * (configText c).data.length - 7, by
      rw [hdata]; simp only [List.length_cons, List.length_append]; omega⟩
  rw [hf, hparse f]



theorem parseValue_deviceText (f depth : Nat) (hd : depth < maxNestingDepth) (d : device)
    (rest : List Char) :
    parseValue (f + 6) depth ((deviceText d).data ++ rest) = some (deviceDoc d, rest) := by
  have hdata : (deviceText d).data ++ rest
      = '{' :: '"' :: (quoteChars "Name".data ++ '"' :: ':' :: '"' ::
          (quoteChars d.Name.data ++ '"' :: ',' :: '"' ::
          (quoteChars "Ip".data ++ '"' :: ':' :: '"' ::
          (quoteChars d.Ip.data ++ '"' :: ',' :: '"' ::
          (quoteChars "Type".data ++ '"' :: ':' :: '"' ::
          (quoteChars d.Type_.data ++ '"' :: ',' :: '"' ::
          (quoteChars "Model".data ++ '"' :: ':' :: '"' ::
          (quoteChars d.Model.data ++ '"' :: '}' :: rest)))))))) := by
    have h1 : quoteChars "Name".data = "Name".data := by rfl
    have h2 : quoteChars "Ip".data = "Ip".data := by rfl
    have h3 : quoteChars "Type".data = "Type".data := by rfl
    have h4 : quoteChars "Model".data = "Model".data := by rfl
    rw [h1, h2, h3, h4]
    simp [deviceText, String.data_append, quote]
  rw [hdata, parseValue, skipSpace_cons_of_not_space _ _ (by rfl)]
  dsimp only
  rw [if_pos rfl, if_neg (by omega), skipSpace_cons_of_not_space _ _ (by rfl)]
  show Option.map _ (parseMembers (f + 5) (depth + 1) _) = _
  rw [parseMembers_string_more, parseMembers_string_more, parseMembers_string_more,
    parseMembers_string_last]
  rfl

theorem parseElems_deviceTexts (depth : Nat) (hd : depth < maxNestingDepth) (ds : List device) :
    ∀ (d : device) (fuel : Nat) (rest : List Char), ds.length + 7 ≤ fuel →
      parseElems fuel depth ((commaJoin ((d :: ds).map deviceText)).data ++ ']' :: rest)
        = some ((d :: ds).map deviceDoc, rest) := by
  induction ds with
  | nil =>
    intro d fuel rest hf
    obtain ⟨f, rfl⟩ : ∃ f, fuel = f + 7 := ⟨fuel - 7, by simp at hf; omega⟩
    simp only [List.map_cons, List.map_nil, commaJoin]
    rw [parseElems, parseValue_deviceText f depth hd d (']' :: rest)]
    simp only [skipSpace_cons_of_not_space ']' _ (by rfl)]
  | cons d1 ds ih =>
    intro d fuel rest hf
    obtain ⟨f, rfl⟩ : ∃ f, fuel = f + 7 := ⟨fuel - 7, by simp at hf; omega⟩
    have hjoin : (commaJoin ((d :: d1 :: ds).map deviceText)).data ++ ']' :: rest
        = (deviceText d).data ++ ',' ::
            ((commaJoin ((d1 :: ds).map deviceText)).data ++ ']' :: rest) := by
      simp [commaJoin, String.data_append]
    rw [hjoin, parseElems, parseValue_deviceText f depth hd d]
    simp only [skipSpace_cons_of_not_space ',' _ (by rfl)]
    rw [ih d1 (f + 6) rest (by simp only [List.length_cons] at hf; omega)]
    rfl

theorem length_le_commaJoin_deviceText (ds : List device) :
    ds.length ≤ (commaJoin (ds.map deviceText)).data.length := by
  have hpos : ∀ d : device, 1 ≤ (deviceText d).data.length := by
    intro d
    simp [deviceText, String.data_append]
  induction ds with
  | nil => simp
  | cons d ds ih =>
    cases ds with
    | nil => simpa [commaJoin] using hpos d
    | cons d1 ds =>
      have h : (commaJoin ((d :: d1 :: ds).map deviceText)).data
          = (deviceText d).data ++ ',' :: (commaJoin ((d1 :: ds).map deviceText)).data := by
        simp [commaJoin, String.data_append]
      rw [h]
      simp only [List.length_append, List.length_cons] at ih ⊢
      omega

theorem readValue_inventoryText (ds : List device) :
    readValue (inventoryText ds) = .ok (inventoryDoc ds) := by
  have hdata : (inventoryText ds).data
      = '{' :: '"' :: (quoteChars "Data".data ++ '"' :: ':' :: '[' ::
          ((commaJoin (ds.map deviceText)).data ++ ']' :: '}' :: [])) := by
    have h1 : quoteChars "Data".data = "Data".data := by rfl
    rw [h1]
    simp [inventoryText, String.data_append]
  have hlen := length_le_commaJoin_deviceText ds
  have hparse : ∀ f, ds.length + 10 ≤ f →
      parseValue f 0 (inventoryText ds).data = some (inventoryDoc ds, []) := by
    intro f0 hf0
    obtain ⟨f, rfl⟩ : ∃ f, f0 = f + 10 := ⟨f0 - 10, by omega⟩
    have harr : parseValue (f + 8) 1
        ('[' :: ((commaJoin (ds.map deviceText)).data ++ ']' :: '}' :: []))
        = some (.arr (ds.map deviceDoc), ['}']) := by
      cases ds with
      | nil =>
        rw [parseValue]
        rfl
      | cons d ds =>
        obtain ⟨tail, htail⟩ : ∃ tail, (commaJoin ((d :: ds).map deviceText)).data
            ++ ']' :: '}' :: [] = '{' :: tail := by
          cases ds with
          | nil => exact ⟨_, by simp [commaJoin, deviceText, String.data_append]; rfl⟩
          | cons d1 ds => exact ⟨_, by simp [commaJoin, deviceText, String.data_append]; rfl⟩
        have hp := parseElems_deviceTexts 2 (by decide) ds d (f + 7) ['}']
          (by simp only [List.length_cons] at hf0; omega)
        rw [parseValue, skipSpace_cons_of_not_space _ _ (by rfl)]
        dsimp only
        rw [if_neg (by decide), if_pos rfl, if_neg (by decide)]
        generalize (commaJoin ((d :: ds).map deviceText)).data ++ ']' :: '}' :: [] = L
          at hp htail
        subst htail
        rw [skipSpace_cons_of_not_space _ _ (by rfl)]
        show Option.map _ (parseElems (f + 7) (1 + 1) _) = _
        rw [hp]
        rfl
    rw [hdata, parseValue, skipSpace_cons_of_not_space _ _ (by rfl)]
    dsimp only
    rw [if_pos rfl, if_neg (by decide), skipSpace_cons_of_not_space _ _ (by rfl)]
    show Option.map _ (parseMembers (f + 9) (0 + 1) _) = _
    have hlenq := length_le_quoteChars ['D', 'a', 't', 'a']
    simp only [List.length_cons, List.length_nil] at hlenq
    rw [parseMembers, skipSpace_cons_of_not_space _ _ (by rfl)]
    simp only
    rw [scanString_quoteChars "Data".data _ _ (by
      show 4 < _
      simp only [List.length_append, List.length_cons]
      omega)]
    simp only [skipSpace_cons_of_not_space ':' _ (by rfl), harr,
      skipSpace_cons_of_not_space '}' _ (by rfl)]
    rfl
  unfold readValue
  rw [hparse _ (by rw [hdata]; simp only [List.length_cons, List.length_append]; omega)]



theorem equalFold_eq (a key : String) :
    equalFold a key = true ↔ a.data.map foldRune = key.data.map foldRune := by
  simp [equalFold]

theorem findField_device (key : String) :
    findField device.fieldNames key =
      if equalFold "Name" key then some "Name"
      else if equalFold "Ip" key then some "Ip"
      else if equalFold "Type" key then some "Type"
      else if equalFold "Model" key then some "Model"
      else none := by
  by_cases h1 : key = "Name"
  · subst h1; rfl
  by_cases h2 : key = "Ip"
  · subst h2; rfl
  by_cases h3 : key = "Type"
  · subst h3; rfl
  by_cases h4 : key = "Model"
  · subst h4; rfl
  have e1 : ("Name" == key) = false := beq_eq_false_iff_ne.mpr (Ne.symm h1)
  have e2 : ("Ip" == key) = false := beq_eq_false_iff_ne.mpr (Ne.symm h2)
  have e3 : ("Type" == key) = false := beq_eq_false_iff_ne.mpr (Ne.symm h3)
  have e4 : ("Model" == key) = false := beq_eq_false_iff_ne.mpr (Ne.symm h4)
  simp only [findField, device.fieldNames, List.find?, e1, e2, e3, e4]
  cases equalFold "Name" key <;> cases equalFold "Ip" key <;> cases equalFold "Type" key <;>
    cases equalFold "Model" key <;> rfl

theorem equalFold_exclusive (a b key : String) (ha : equalFold a key = true)
    (hb : equalFold b key = true) : a.data.map foldRune = b.data.map foldRune := by
  rw [equalFold_eq] at ha hb
  rw [ha, hb]



theorem equalFold_other (a b key : String)
    (hne : a.data.map foldRune ≠ b.data.map foldRune) (ha : equalFold a key = true) :
    equalFold b key = false := by
  cases hb : equalFold b key with
  | false => rfl
  | true => exact absurd (equalFold_exclusive a b key ha hb) hne

theorem membersDevice_nil (cur : device) : membersDevice cur [] = some cur := by
  cases cur; rfl

theorem membersDevice_skip (cur : device) (k : String) (v : Json) (ms : List (String × Json))
    (hN : equalFold "Name" k = false) (hI : equalFold "Ip" k = false)
    (hT : equalFold "Type" k = false) (hM : equalFold "Model" k = false) :
    membersDevice cur ((k, v) :: ms) = membersDevice cur ms := by
  simp only [membersDevice, fieldText, hN, hI, hT, hM]
  rfl

theorem storeMembers_device (ms : List (String × Json)) :
    ∀ cur : device,
      (storeMembers device.fieldNames device.set cur ms).toOption = membersDevice cur ms := by
  induction ms with
  | nil => intro cur; rw [membersDevice_nil]; rfl
  | cons m ms ih =>
    intro cur
    obtain ⟨k, v⟩ := m
    rw [storeMembers, findField_device]
    by_cases hN : equalFold "Name" k = true
    · have hI := equalFold_other "Name" "Ip" k (by decide) hN
      have hT := equalFold_other "Name" "Type" k (by decide) hN
      have hM := equalFold_other "Name" "Model" k (by decide) hN
      cases v <;>
        simp [device.set, storeString, Except.map, membersDevice, fieldText, hN, hI, hT, hM,
          Json.kind, Except.toOption] <;> exact ih _
    · have hN : equalFold "Name" k = false := by simpa using hN
      by_cases hI : equalFold "Ip" k = true
      · have hT := equalFold_other "Ip" "Type" k (by decide) hI
        have hM := equalFold_other "Ip" "Model" k (by decide) hI
        cases v <;>
          simp [device.set, storeString, Except.map, membersDevice, fieldText, hN, hI, hT, hM,
            Json.kind, Except.toOption] <;> exact ih _
      · have hI : equalFold "Ip" k = false := by simpa using hI
        by_cases hT : equalFold "Type" k = true
        · have hM := equalFold_other "Type" "Model" k (by decide) hT
          cases v <;>
            simp [device.set, storeString, Except.map, membersDevice, fieldText, hN, hI, hT,
              hM, Json.kind, Except.toOption] <;> exact ih _
        · have hT : equalFold "Type" k = false := by simpa using hT
          by_cases hM : equalFold "Model" k = true
          · cases v <;>
              simp [device.set, storeString, Except.map, membersDevice, fieldText, hN, hI, hT,
                hM, Json.kind, Except.toOption] <;> exact ih _
          · have hM : equalFold "Model" k = false := by simpa using hM
            simp only [hN, hI, hT, hM, Bool.false_eq_true, if_false]
            rw [ih, membersDevice_skip cur k v ms hN hI hT hM]



theorem toOption_map {ε α β : Type} (f : α → β) (x : Except ε α) :
    (x.map f).toOption = x.toOption.map f := by
  cases x <;> rfl

theorem storeDevicePtr_none (j : Json) :
    (storeDevicePtr none j).toOption = elementDevice j := by
  cases j with
  | null => rfl
  | obj ms =>
    show ((storeMembers device.fieldNames device.set device.zero ms).map some).toOption = _
    rw [toOption_map, storeMembers_device]
    rfl
  | bool b => rfl
  | num l => rfl
  | str s => rfl
  | arr es => rfl

theorem storeElems_nil (js : List Json) :
    (storeElems [] js).toOption = listDevices js := by
  induction js with
  | nil => rfl
  | cons j js ih =>
    have hp := storeDevicePtr_none j
    simp only [storeElems, listDevices, List.headD_nil, List.tail_nil]
    rw [← hp, ← ih]
    cases storeDevicePtr none j with
    | error e => rfl
    | ok p => cases storeElems [] js <;> rfl

theorem findField_Data (key : String) :
    findField ["Data"] key = if equalFold "Data" key then some "Data" else none := by
  by_cases h : key = "Data"
  · subst h; rfl
  have e : ("Data" == key) = false := beq_eq_false_iff_ne.mpr (Ne.symm h)
  simp only [findField, List.find?, e]
  cases equalFold "Data" key <;> rfl

theorem storeMembers_no_Data (members : List (String × Json)) (cur : deviceSlice)
    (h : dataMembers members = []) :
    storeMembers ["Data"]
      (fun o field v => if field = "Data" then storeSlice o v else .ok o) cur members
      = .ok cur := by
  induction members with
  | nil => rfl
  | cons m ms ih =>
    obtain ⟨k, v⟩ := m
    by_cases hk : equalFold "Data" k = true
    · simp [dataMembers, List.filter, hk] at h
    · have hk : equalFold "Data" k = false := by simpa using hk
      have h1 : dataMembers ms = [] := by simpa [dataMembers, List.filter, hk] using h
      rw [storeMembers, findField_Data]
      simp only [hk, Bool.false_eq_true, if_false]
      exact ih h1

theorem storeMembers_one_Data (members : List (String × Json)) (cur : deviceSlice)
    (k : String) (v : Json) (h : dataMembers members = [(k, v)]) :
    storeMembers ["Data"]
      (fun o field v => if field = "Data" then storeSlice o v else .ok o) cur members
      = storeSlice cur v := by
  induction members with
  | nil => simp [dataMembers] at h
  | cons m ms ih =>
    obtain ⟨k1, v1⟩ := m
    by_cases hk : equalFold "Data" k1 = true
    · have h1 : (k1, v1) = (k, v) ∧ dataMembers ms = [] := by
        simpa [dataMembers, List.filter, hk] using h
      obtain ⟨h2, h3⟩ := h1
      cases h2
      rw [storeMembers, findField_Data]
      simp only [hk, if_true]
      cases hs : storeSlice cur v with
      | error e => rfl
      | ok s => exact storeMembers_no_Data ms s h3
    · have hk : equalFold "Data" k1 = false := by simpa using hk
      have h1 : dataMembers ms = [(k, v)] := by simpa [dataMembers, List.filter, hk] using h
      rw [storeMembers, findField_Data]
      simp only [hk, Bool.false_eq_true, if_false]
      exact ih h1

theorem storeSlice_empty (v : Json) :
    ((storeSlice ⟨[], []⟩ v).toOption.map fun s => s.elems) =
      match v with
      | .null => some []
      | .arr elems => listDevices elems
      | _ => none := by
  cases v with
  | null => rfl
  | arr es =>
    cases es with
    | nil => rfl
    | cons e es =>
      have h := storeElems_nil (e :: es)
      simp only [storeSlice, List.append_nil]
      rw [← h]
      cases storeElems [] (e :: es) <;> rfl
  | bool b => rfl
  | num l => rfl
  | str s => rfl
  | obj ms => rfl

theorem storeObject_bodyDevices (j : Json)
    (hone : ∀ members, j = .obj members → (dataMembers members).length ≤ 1) :
    ((storeObject ⟨[], []⟩ j).toOption.map fun s => s.elems) = bodyDevices j := by
  cases j with
  | null => rfl
  | bool b => rfl
  | num l => rfl
  | str s => rfl
  | arr es => rfl
  | obj members =>
    have h1 := hone members rfl
    simp only [storeObject, bodyDevices]
    match hd : dataMembers members, h1 with
    | [], _ =>
      rw [storeMembers_no_Data members _ hd]
      rfl
    | [(k, v)], _ =>
      rw [storeMembers_one_Data members _ k v hd, storeSlice_empty]
      cases v <;> rfl
    | _ :: _ :: _, h2 => simp at h2


theorem jsonValid_false_of_readValue_error (text : String) (e : JsonError)
    (h : readValue text = .error e) : jsonValid text = false := by
  unfold readValue at h
  unfold jsonValid
  cases hp : parseValue (2 * text.data.length + 2) 0 text.data with
  | none => rfl
  | some r => rw [hp] at h; cases h

/-! ## The claims -/

set_option maxRecDepth 20000

/-- C1: for every configuration and every list of devices `d_0, ..., d_{N-1}`,
the handler's transformation of that list (as the non-nil pointers the
inventory fetch returns) yields a list of exactly `N` entries, entry `i` having
the single target `BlackboxURL ++ "/probe?module=icmp&target=" ++ d_i.Ip` and
exactly the four labels `ip`, `name`, `type`, `model` with the values of
`d_i`; the list is the input mapped element by element in the same order, and
when login and fetch succeed it is this list that the handler encodes onto the
response. -/
theorem transform_is_elementwise (cfg : config) (ds : List device) :
    ∃ promSd : List promSDEntry,
      transform cfg (ds.map some) = some promSd
      ∧ promSd.length = ds.length
      ∧ (∀ (i : Nat) (h : i < ds.length),
          promSd[i]? = some
            { Targets := some [cfg.BlackboxURL ++ "/probe?module=icmp&target=" ++ ds[i].Ip],
              Labels := some [("ip", ds[i].Ip), ("name", ds[i].Name), ("type", ds[i].Type_),
                ("model", ds[i].Model)] })
      ∧ promSd = ds.map (fun d =>
          { Targets := some [cfg.BlackboxURL ++ "/probe?module=icmp&target=" ++ d.Ip],
            Labels := some [("ip", d.Ip), ("name", d.Name), ("type", d.Type_),
              ("model", d.Model)] })
      ∧ ∀ (w : World) (cookies : List Cookie),
          (login w cfg.UnifiURL cfg.Username cfg.Password).1 = .ok cookies →
          (getDeviceList w cookies cfg.UnifiURL cfg.Site).1 = .ok (ds.map some) →
          (handler cfg w).written = [marshalEntries promSd ++ "\n"] := by
  refine ⟨ds.map (entryOf cfg), transform_map_some cfg ds, by simp, ?_, rfl, ?_⟩
  · intro i h
    simp [List.getElem?_map, List.getElem?_eq_getElem h, entryOf]
  · intro w cookies hl hf
    rw [handler_fetch_ok cfg w cookies _ hl hf, transform_map_some]
    simp only
    cases w.write (marshalEntries (ds.map (entryOf cfg)) ++ "\n") <;> rfl

/-- C1 at the sample controller with one access point in its inventory. -/
theorem transform_is_elementwise_witness :
    (login (sampleWorld sampleInventory) sampleConfig.UnifiURL sampleConfig.Username
        sampleConfig.Password).1 = .ok sampleCookies
    ∧ (getDeviceList (sampleWorld sampleInventory) sampleCookies sampleConfig.UnifiURL
        sampleConfig.Site).1 = .ok [some sampleDevice]
    ∧ transform sampleConfig [some sampleDevice]
        = some [⟨some ["http://blackbox:9115/probe?module=icmp&target=10.0.0.2"],
            some [("ip", "10.0.0.2"), ("name", "ap-hall"), ("type", "uap"), ("model", "U7LT")]⟩]
    ∧ (handler sampleConfig (sampleWorld sampleInventory)).written
      = ["[\x7b\"targets\":[\"http://blackbox:9115/probe?module=icmp\\u0026target=10.0.0.2\"],"
          ++ "\"labels\":\x7b\"ip\":\"10.0.0.2\",\"model\":\"U7LT\",\"name\":\"ap-hall\","
          ++ "\"type\":\"uap\"\x7d\x7d]\n"] := by
  obtain ⟨promSd, h1, _, _, h4, h5⟩ := transform_is_elementwise sampleConfig [sampleDevice]
  refine ⟨by rfl, by rfl, by rfl, ?_⟩
  rw [h5 _ sampleCookies (by rfl) (by rfl), h4]
  rfl

/-- C2, as stated, fails: at the sample controller answering the device
listing with status 200 and the body `{"Data": []}`, login succeeds and
`getDeviceList` returns the empty list without error, but the text the handler
writes as response body is `[]` followed by a newline character, three bytes
and not the two of `[]`. -/
theorem empty_inventory_body_not_bare_brackets :
    (login (sampleWorld "\x7b\"Data\": []\x7d") sampleConfig.UnifiURL sampleConfig.Username
        sampleConfig.Password).1 = .ok sampleCookies
    ∧ (getDeviceList (sampleWorld "\x7b\"Data\": []\x7d") sampleCookies sampleConfig.UnifiURL
        sampleConfig.Site).1 = .ok []
    ∧ (handler sampleConfig (sampleWorld "\x7b\"Data\": []\x7d")).written = ["[]\n"]
    ∧ (handler sampleConfig (sampleWorld "\x7b\"Data\": []\x7d")).written ≠ ["[]"] := by
  refine ⟨by rfl, by rfl, by rfl, by decide⟩

/-- C2, amended: when login succeeds and the inventory response is status 200
with body `{"Data": []}`, `getDeviceList` returns the empty list without error,
and the response body the handler writes is exactly the JSON text `[]`
followed by one newline character (an empty array, not `null`), with status
200. -/
theorem empty_inventory_response (cfg : config) (w : World) (cookies : List Cookie)
    (resp : Response)
    (hl : (login w cfg.UnifiURL cfg.Username cfg.Password).1 = .ok cookies)
    (hu : w.parseURL (cfg.UnifiURL ++ "/api/s/" ++ cfg.Site ++ "/stat/device") = .ok ())
    (hs : w.send ⟨"GET", cfg.UnifiURL ++ "/api/s/" ++ cfg.Site ++ "/stat/device", cookies⟩
            = .ok resp)
    (h200 : resp.StatusCode = 200) (hb : resp.Body = "\x7b\"Data\": []\x7d") :
    (getDeviceList w cookies cfg.UnifiURL cfg.Site).1 = .ok []
    ∧ (handler cfg w).written = ["[]\n"]
    ∧ (handler cfg w).status = some 200 := by
  have hs1 : w.send (cookies.foldl Request.AddCookie
      ⟨"GET", cfg.UnifiURL ++ "/api/s/" ++ cfg.Site ++ "/stat/device", []⟩) = .ok resp := by
    simpa [foldl_AddCookie] using hs
  have hf : (getDeviceList w cookies cfg.UnifiURL cfg.Site).1 = .ok [] := by
    rw [getDeviceList_of_response w cookies cfg.UnifiURL cfg.Site resp hu hs1]
    have hd : decodeObject "\x7b\"Data\": []\x7d" = .ok ⟨[], []⟩ := by rfl
    simp [h200, hb, hd]
  refine ⟨hf, ?_, ?_⟩
  · rw [handler_fetch_ok cfg w cookies _ hl hf]
    have ht : transform cfg [] = some [] := rfl
    simp only [ht]
    cases w.write (marshalEntries [] ++ "\n") <;> rfl
  · rw [handler_fetch_ok cfg w cookies _ hl hf]
    have ht : transform cfg [] = some [] := rfl
    simp only [ht]
    cases w.write (marshalEntries [] ++ "\n") <;> rfl

/-- C2, amended, at the sample controller. -/
theorem empty_inventory_response_witness :
    (handler sampleConfig (sampleWorld "\x7b\"Data\": []\x7d")).written = ["[]\n"]
    ∧ (handler sampleConfig (sampleWorld "\x7b\"Data\": []\x7d")).status = some 200 :=
  (empty_inventory_response sampleConfig (sampleWorld "\x7b\"Data\": []\x7d") sampleCookies
    ⟨200, [], "\x7b\"Data\": []\x7d"⟩ (by rfl) (by rfl) (by rfl) (by rfl) (by rfl)).2

/-- C3: for every url, username and password, `login` returns an error if and
only if the `http.Post` call errors or the response status is not 200; when
the status is not 200 the error message is `login unsuccessful ` followed by
the complete response body text, so it contains that text; and when the status
is 200 `login` returns, without error, exactly the cookies of that response. -/
theorem login_result (w : World) (url username password : String) :
    ((∃ err, (login w url username password).1 = .error err) ↔
      ((∃ e, w.post (url ++ "/api/login") "application/json"
            (credentialsText username password)
          = .error e)
        ∨ ∃ resp, w.post (url ++ "/api/login") "application/json"
            (credentialsText username password)
          = .ok resp ∧ resp.StatusCode ≠ 200))
    ∧ (∀ resp, w.post (url ++ "/api/login") "application/json"
            (credentialsText username password)
          = .ok resp → resp.StatusCode ≠ 200 →
        (login w url username password).1 = .error (.msg ("login unsuccessful " ++ resp.Body))
        ∧ ∃ pre post : String, "login unsuccessful " ++ resp.Body = pre ++ resp.Body ++ post)
    ∧ (∀ resp, w.post (url ++ "/api/login") "application/json"
            (credentialsText username password)
          = .ok resp → resp.StatusCode = 200 →
        (login w url username password).1 = .ok resp.Cookies) := by
  refine ⟨?_, ?_, ?_⟩
  · simp only [login, marshalCredentials]
    cases hp : w.post (url ++ "/api/login") "application/json"
        (credentialsText username password) with
    | error e => simp
    | ok resp =>
      by_cases h : resp.StatusCode = 200 <;> simp [h]
  · intro resp hp hne
    refine ⟨by simp [login, marshalCredentials, hp, hne], "login unsuccessful ", "", by simp⟩
  · intro resp hp h
    simp [login, marshalCredentials, hp, h]

/-- C3 at a controller refusing the login with status 401 and the body
`bad credentials`. -/
theorem login_result_witness :
    (login (refusingWorld "bad credentials") "https://unifi:8443" "admin" "secret").1
      = .error (.msg "login unsuccessful bad credentials") :=
  ((login_result (refusingWorld "bad credentials") "https://unifi:8443" "admin" "secret").2.1
    ⟨401, [], "bad credentials"⟩ (by rfl) (by decide)).1

/-- C4, as stated, fails: at the sample controller, which answers every device
listing with status 200 and a well-formed inventory, a site name with a line
break makes `getDeviceList` return an error although none of the three listed
conditions holds: no network call is made at all (the request cannot be
built), and every request the controller could receive would be answered with
status 200 and a body that decodes. -/
theorem getDeviceList_fourth_error :
    (getDeviceList (sampleWorld sampleInventory) sampleCookies "https://unifi:8443"
        "default\n").1
      = .error (.wrap "getting device list creating request: "
          (.url "parse" "https://unifi:8443/api/s/default\n/stat/device"
            (.msg "net/url: invalid control character in URL")))
    ∧ (getDeviceList (sampleWorld sampleInventory) sampleCookies "https://unifi:8443"
        "default\n").2 = []
    ∧ ∀ request : Request, ∃ resp object,
        (sampleWorld sampleInventory).send request = .ok resp ∧ resp.StatusCode = 200
        ∧ decodeObject resp.Body = .ok object := by
  refine ⟨by rfl, by rfl, fun _ => ⟨⟨200, [], sampleInventory⟩, ⟨[some sampleDevice], []⟩, ?_⟩⟩
  exact ⟨rfl, rfl, by rfl⟩

/-- C4, amended: for every cookie list, url and site, `getDeviceList` returns an
error if and only if one of these four holds: the request cannot be built from
the URL, the network call errors, the response status is not 200, or the
response body cannot be decoded into the object with a `Data` list of devices;
in every other case it returns, without error, exactly the devices of the
body's `Data` list in the order they appear.  The devices of the body's `Data`
list are read by `bodyDevices`, independently of the decoder, on every body
whose first JSON value has at most one member with the key `Data` up to case:
the result is that reading whenever it exists, and an error whenever it does
not.  In particular a body that reads as, or is written as, the document
`{"Data": [...]}` of a list of devices returns exactly those devices. -/
theorem getDeviceList_result (w : World) (cookies : List Cookie) (url site : String) :
    ((∃ err, (getDeviceList w cookies url site).1 = .error err) ↔
      ((∃ e, w.parseURL (url ++ "/api/s/" ++ site ++ "/stat/device") = .error e)
        ∨ (∃ e, w.send ⟨"GET", url ++ "/api/s/" ++ site ++ "/stat/device", cookies⟩ = .error e)
        ∨ (∃ resp, w.send ⟨"GET", url ++ "/api/s/" ++ site ++ "/stat/device", cookies⟩
              = .ok resp ∧ resp.StatusCode ≠ 200)
        ∨ ∃ resp, w.send ⟨"GET", url ++ "/api/s/" ++ site ++ "/stat/device", cookies⟩
              = .ok resp ∧ ∃ e, decodeObject resp.Body = .error e))
    ∧ (∀ (resp : Response) (ds : List device),
        w.parseURL (url ++ "/api/s/" ++ site ++ "/stat/device") = .ok () →
        w.send ⟨"GET", url ++ "/api/s/" ++ site ++ "/stat/device", cookies⟩ = .ok resp →
        resp.StatusCode = 200 →
        readValue resp.Body = .ok (inventoryDoc ds) →
        (getDeviceList w cookies url site).1 = .ok (ds.map some))
    ∧ (∀ (resp : Response) (ds : List device),
        w.parseURL (url ++ "/api/s/" ++ site ++ "/stat/device") = .ok () →
        w.send ⟨"GET", url ++ "/api/s/" ++ site ++ "/stat/device", cookies⟩ = .ok resp →
        resp.StatusCode = 200 →
        resp.Body = inventoryText ds →
        (getDeviceList w cookies url site).1 = .ok (ds.map some))
    ∧ ∀ (resp : Response) (j : Json),
        w.parseURL (url ++ "/api/s/" ++ site ++ "/stat/device") = .ok () →
        w.send ⟨"GET", url ++ "/api/s/" ++ site ++ "/stat/device", cookies⟩ = .ok resp →
        resp.StatusCode = 200 →
        readValue resp.Body = .ok j →
        (∀ members, j = .obj members → (dataMembers members).length ≤ 1) →
        (∀ devices, bodyDevices j = some devices →
          (getDeviceList w cookies url site).1 = .ok devices)
        ∧ (bodyDevices j = none → ∃ err, (getDeviceList w cookies url site).1 = .error err) := by
  have key : ∀ (resp : Response) (ds : List device),
      w.parseURL (url ++ "/api/s/" ++ site ++ "/stat/device") = .ok () →
      w.send ⟨"GET", url ++ "/api/s/" ++ site ++ "/stat/device", cookies⟩ = .ok resp →
      resp.StatusCode = 200 →
      readValue resp.Body = .ok (inventoryDoc ds) →
      (getDeviceList w cookies url site).1 = .ok (ds.map some) := by
    intro resp ds hu hs h200 hb
    have hs1 : w.send (cookies.foldl Request.AddCookie
        ⟨"GET", url ++ "/api/s/" ++ site ++ "/stat/device", []⟩) = .ok resp := by
      simpa [foldl_AddCookie] using hs
    obtain ⟨spare, hd⟩ := storeObject_inventoryDoc ds
    rw [getDeviceList_of_response w cookies url site resp hu hs1]
    simp [h200, decodeObject, hb, hd]
  have general : ∀ (resp : Response) (j : Json),
      w.parseURL (url ++ "/api/s/" ++ site ++ "/stat/device") = .ok () →
      w.send ⟨"GET", url ++ "/api/s/" ++ site ++ "/stat/device", cookies⟩ = .ok resp →
      resp.StatusCode = 200 →
      readValue resp.Body = .ok j →
      (∀ members, j = .obj members → (dataMembers members).length ≤ 1) →
      (∀ devices, bodyDevices j = some devices →
        (getDeviceList w cookies url site).1 = .ok devices)
      ∧ (bodyDevices j = none → ∃ err, (getDeviceList w cookies url site).1 = .error err) := by
    intro resp j hu hs h200 hb hone
    have hs1 : w.send (cookies.foldl Request.AddCookie
        ⟨"GET", url ++ "/api/s/" ++ site ++ "/stat/device", []⟩) = .ok resp := by
      simpa [foldl_AddCookie] using hs
    have hspec := storeObject_bodyDevices j hone
    rw [getDeviceList_of_response w cookies url site resp hu hs1]
    simp only [h200, ne_eq, not_true_eq_false, if_false, decodeObject, hb]
    cases hd : storeObject ⟨[], []⟩ j with
    | error e =>
      rw [hd] at hspec
      refine ⟨fun devices hdev => ?_, fun _ => ⟨_, rfl⟩⟩
      rw [hdev] at hspec
      cases hspec
    | ok s =>
      rw [hd] at hspec
      refine ⟨fun devices hdev => ?_, fun hnone => ?_⟩
      · rw [hdev] at hspec
        have : s.elems = devices := by simpa [Except.toOption] using hspec
        simp [this]
      · rw [hnone] at hspec
        cases hspec
  refine ⟨?_, key, fun resp ds hu hs h200 hb =>
    key resp ds hu hs h200 (by rw [hb]; exact readValue_inventoryText ds), general⟩
  · cases hu : w.parseURL (url ++ "/api/s/" ++ site ++ "/stat/device") with
    | error e => simp [getDeviceList, newRequest, hu]
    | ok u =>
      cases hs : w.send ⟨"GET", url ++ "/api/s/" ++ site ++ "/stat/device", cookies⟩ with
      | error e => simp [getDeviceList, newRequest, hu, foldl_AddCookie, hs]
      | ok resp =>
        have hs1 : w.send (cookies.foldl Request.AddCookie
            ⟨"GET", url ++ "/api/s/" ++ site ++ "/stat/device", []⟩) = .ok resp := by
          simpa [foldl_AddCookie] using hs
        rw [getDeviceList_of_response w cookies url site resp hu hs1]
        by_cases h : resp.StatusCode = 200
        · cases hd : decodeObject resp.Body <;> simp [h, hd]
        · simp [h]

/-- C4, amended, at the sample controller: once with the plain document of
one access point, once with a body as a controller sends it (lower-case keys,
members the program does not read, a `null` element). -/
theorem getDeviceList_result_witness :
    (getDeviceList (sampleWorld sampleInventory) sampleCookies "https://unifi:8443"
        "default").1 = .ok [some sampleDevice]
    ∧ (getDeviceList (sampleWorld controllerInventory) sampleCookies "https://unifi:8443"
        "default").1 = .ok [some sampleDevice, none] :=
  ⟨(getDeviceList_result (sampleWorld sampleInventory) sampleCookies "https://unifi:8443"
      "default").2.1 ⟨200, [], sampleInventory⟩ [sampleDevice] (by rfl) (by rfl) (by rfl)
      (by rfl),
    ((getDeviceList_result (sampleWorld controllerInventory) sampleCookies
      "https://unifi:8443" "default").2.2.2 ⟨200, [], controllerInventory⟩
      (.obj [("meta", .obj [("rc", .str "ok")]),
        ("data", .arr [.obj [("ip", .str "10.0.0.2"), ("adopted", .bool true),
          ("name", .str "ap-hall"), ("type", .str "uap"), ("model", .str "U7LT")], .null])])
      (by rfl) (by rfl) (by rfl) (by rfl)
      (fun members h => by cases h; decide)).1 [some sampleDevice, none] (by rfl)⟩

/-- C5, as stated, fails: at the sample controller answering the device
listing with status 200 and the body `{"Data": []}garbage`, which is not
well-formed JSON, login succeeds and the request does not fail: the decoder
reads the complete first value and does not look at what follows it, so the
handler returns normally after writing the full body `[]` and a newline with
status 200. -/
theorem garbage_after_first_value_is_served :
    jsonValid "\x7b\"Data\": []\x7dgarbage" = false
    ∧ (login (sampleWorld "\x7b\"Data\": []\x7dgarbage") sampleConfig.UnifiURL
        sampleConfig.Username sampleConfig.Password).1 = .ok sampleCookies
    ∧ (getDeviceList (sampleWorld "\x7b\"Data\": []\x7dgarbage") sampleCookies
        sampleConfig.UnifiURL sampleConfig.Site).1 = .ok []
    ∧ (handler sampleConfig (sampleWorld "\x7b\"Data\": []\x7dgarbage")).outcome = .returned
    ∧ (handler sampleConfig (sampleWorld "\x7b\"Data\": []\x7dgarbage")).written = ["[]\n"]
    ∧ (handler sampleConfig (sampleWorld "\x7b\"Data\": []\x7dgarbage")).status = some 200 := by
  refine ⟨by rfl, by rfl, by rfl, by rfl, by rfl, by rfl⟩

/-- C5, amended: for every request in which login succeeds and the inventory
response is status 200 with a body from which no first JSON value can be read
(a body malformed before its first value is complete, which is in particular
not well-formed JSON), `getDeviceList` fails with the decoding error, the
handler ends in `log.Fatal` with that error, and nothing at all is written to
the response: no `Write` is made and the status is never fixed. -/
theorem malformed_inventory_writes_nothing (cfg : config) (w : World) (cookies : List Cookie)
    (resp : Response) (e : JsonError)
    (hl : (login w cfg.UnifiURL cfg.Username cfg.Password).1 = .ok cookies)
    (hu : w.parseURL (cfg.UnifiURL ++ "/api/s/" ++ cfg.Site ++ "/stat/device") = .ok ())
    (hs : w.send ⟨"GET", cfg.UnifiURL ++ "/api/s/" ++ cfg.Site ++ "/stat/device", cookies⟩
            = .ok resp)
    (h200 : resp.StatusCode = 200) (hb : readValue resp.Body = .error e) :
    jsonValid resp.Body = false
    ∧ (getDeviceList w cookies cfg.UnifiURL cfg.Site).1
        = .error (.wrap "decoding device list: " (.json e))
    ∧ (handler cfg w).outcome = .fatal "" (.wrap "decoding device list: " (.json e))
    ∧ (handler cfg w).written = []
    ∧ (handler cfg w).status = none := by
  have hs1 : w.send (cookies.foldl Request.AddCookie
      ⟨"GET", cfg.UnifiURL ++ "/api/s/" ++ cfg.Site ++ "/stat/device", []⟩) = .ok resp := by
    simpa [foldl_AddCookie] using hs
  have hf : (getDeviceList w cookies cfg.UnifiURL cfg.Site).1
      = .error (.wrap "decoding device list: " (.json e)) := by
    rw [getDeviceList_of_response w cookies cfg.UnifiURL cfg.Site resp hu hs1]
    simp [h200, decodeObject, hb]
  rw [handler_fetch_error cfg w cookies _ hl hf]
  exact ⟨jsonValid_false_of_readValue_error _ e hb, hf, rfl, rfl, rfl⟩

/-- C5, amended, at the sample controller sending an inventory cut off after
the opening bracket of the list. -/
theorem malformed_inventory_writes_nothing_witness :
    (handler sampleConfig (sampleWorld "\x7b\"Data\": [")).outcome
        = .fatal "" (.wrap "decoding device list: " (.json .malformed))
    ∧ (handler sampleConfig (sampleWorld "\x7b\"Data\": [")).written = []
    ∧ (handler sampleConfig (sampleWorld "\x7b\"Data\": [")).status = none :=
  (malformed_inventory_writes_nothing sampleConfig (sampleWorld "\x7b\"Data\": [") sampleCookies
    ⟨200, [], "\x7b\"Data\": ["⟩ .malformed (by rfl) (by rfl) (by rfl) (by rfl)
    (by rfl)).2.2

/-- C6: for any two handled requests with the same configuration in which the
controller returns the same device list, the response bodies written are
identical (and so is the status), whatever session cookies the two logins
returned. -/
theorem response_independent_of_session (cfg : config) (w1 w2 : World)
    (cookies1 cookies2 : List Cookie) (devices : List (Option device))
    (hl1 : (login w1 cfg.UnifiURL cfg.Username cfg.Password).1 = .ok cookies1)
    (hl2 : (login w2 cfg.UnifiURL cfg.Username cfg.Password).1 = .ok cookies2)
    (hf1 : (getDeviceList w1 cookies1 cfg.UnifiURL cfg.Site).1 = .ok devices)
    (hf2 : (getDeviceList w2 cookies2 cfg.UnifiURL cfg.Site).1 = .ok devices) :
    (handler cfg w1).written = (handler cfg w2).written
    ∧ (handler cfg w1).status = (handler cfg w2).status
    ∧ (handler cfg w1).header = (handler cfg w2).header := by
  rw [handler_fetch_ok cfg w1 cookies1 devices hl1 hf1,
    handler_fetch_ok cfg w2 cookies2 devices hl2 hf2]
  cases transform cfg devices with
  | none => exact ⟨rfl, rfl, rfl⟩
  | some promSd =>
    simp only
    cases w1.write (marshalEntries promSd ++ "\n") <;>
      cases w2.write (marshalEntries promSd ++ "\n") <;> exact ⟨rfl, rfl, rfl⟩

/-- C6 at the sample controller, for two logins that got different session
cookies. -/
theorem response_independent_of_session_witness :
    sampleCookies ≠ [⟨"unifises", "Qm41"⟩]
    ∧ (handler sampleConfig (sampleWorld sampleInventory)).written
        = (handler sampleConfig (laterSessionWorld sampleInventory)).written :=
  ⟨by decide,
    (response_independent_of_session sampleConfig (sampleWorld sampleInventory)
      (laterSessionWorld sampleInventory) sampleCookies [⟨"unifises", "Qm41"⟩]
      [some sampleDevice] (by rfl) (by rfl) (by rfl) (by rfl)).1⟩

/-- C8: for every inbound request, if `login` returns an error, or
`getDeviceList` returns an error, or encoding the entries onto the response
fails, the handler ends in `log.Fatal`, which terminates the whole process, and
never by returning a response; and no later stage runs after a failed one:
after a failed login the only upstream call is the login POST and nothing is
written, after a failed fetch nothing is written and no status is fixed. -/
theorem request_errors_are_fatal (cfg : config) (w : World) :
    (∀ err, (login w cfg.UnifiURL cfg.Username cfg.Password).1 = .error err →
      (handler cfg w).outcome = .fatal "" err
      ∧ (handler cfg w).calls
          = [.post (cfg.UnifiURL ++ "/api/login") "application/json"
              (credentialsText cfg.Username cfg.Password)]
      ∧ (handler cfg w).written = [] ∧ (handler cfg w).status = none)
    ∧ (∀ cookies err, (login w cfg.UnifiURL cfg.Username cfg.Password).1 = .ok cookies →
      (getDeviceList w cookies cfg.UnifiURL cfg.Site).1 = .error err →
      (handler cfg w).outcome = .fatal "" err
      ∧ (handler cfg w).written = [] ∧ (handler cfg w).status = none)
    ∧ (∀ cookies devices promSd err,
      (login w cfg.UnifiURL cfg.Username cfg.Password).1 = .ok cookies →
      (getDeviceList w cookies cfg.UnifiURL cfg.Site).1 = .ok devices →
      transform cfg devices = some promSd →
      (Encode w promSd).1 = .error err →
      (handler cfg w).outcome = .fatal "encoding prometheus service discover entries: " err)
    ∧ ((handler cfg w).outcome = .returned →
      ∃ cookies devices promSd,
        (login w cfg.UnifiURL cfg.Username cfg.Password).1 = .ok cookies
        ∧ (getDeviceList w cookies cfg.UnifiURL cfg.Site).1 = .ok devices
        ∧ transform cfg devices = some promSd ∧ (Encode w promSd).1 = .ok ()) := by
  refine ⟨?_, ?_, ?_, ?_⟩
  · intro err hl
    rw [handler_login_error cfg w err hl, login_calls]
    exact ⟨rfl, rfl, rfl, rfl⟩
  · intro cookies err hl hf
    rw [handler_fetch_error cfg w cookies err hl hf]
    exact ⟨rfl, rfl, rfl⟩
  · intro cookies devices promSd err hl hf ht he
    rw [handler_fetch_ok cfg w cookies devices hl hf]
    simp only [Encode] at he
    simp only [ht, he]
  · intro hr
    cases hl : (login w cfg.UnifiURL cfg.Username cfg.Password).1 with
    | error err => rw [handler_login_error cfg w err hl] at hr; cases hr
    | ok cookies =>
      cases hf : (getDeviceList w cookies cfg.UnifiURL cfg.Site).1 with
      | error err => rw [handler_fetch_error cfg w cookies err hl hf] at hr; cases hr
      | ok devices =>
        rw [handler_fetch_ok cfg w cookies devices hl hf] at hr
        cases ht : transform cfg devices with
        | none => simp only [ht] at hr; cases hr
        | some promSd =>
          cases hw : w.write (marshalEntries promSd ++ "\n") with
          | error err => simp only [ht, hw] at hr; cases hr
          | ok u => exact ⟨cookies, devices, promSd, rfl, hf, ht, by simp [Encode, hw]⟩

/-- C8 at a controller refusing the login with status 401, and at the sample
controller in front of a client that has gone away. -/
theorem request_errors_are_fatal_witness :
    (handler sampleConfig (refusingWorld "bad credentials")).outcome
        = .fatal "" (.msg "login unsuccessful bad credentials")
    ∧ (handler sampleConfig (brokenPipeWorld sampleInventory)).outcome
        = .fatal "encoding prometheus service discover entries: " (.msg "write: broken pipe") :=
  ⟨((request_errors_are_fatal sampleConfig (refusingWorld "bad credentials")).1
      (.msg "login unsuccessful bad credentials") (by rfl)).1,
    (request_errors_are_fatal sampleConfig (brokenPipeWorld sampleInventory)).2.2.1
      sampleCookies [some sampleDevice] [entryOf sampleConfig sampleDevice]
      (.msg "write: broken pipe") (by rfl) (by rfl) (by rfl) (by rfl)⟩

/-- C10 fails on the code: at the sample controller answering the device
listing with status 200 and the body `{"Data": [null]}`, `getDeviceList`
returns without error a list whose only element is a nil pointer, and the
handler's loop panics on it; no entry and no response body is produced. -/
theorem null_inventory_element_panics :
    (getDeviceList (sampleWorld "\x7b\"Data\": [null]\x7d") sampleCookies sampleConfig.UnifiURL
        sampleConfig.Site).1 = .ok [none]
    ∧ transform sampleConfig [none] = none
    ∧ (handler sampleConfig (sampleWorld "\x7b\"Data\": [null]\x7d")).outcome = .panicked
    ∧ (handler sampleConfig (sampleWorld "\x7b\"Data\": [null]\x7d")).written = [] := by
  refine ⟨by rfl, by rfl, by rfl, by rfl⟩

/-- C7: for every configuration value `c` (any strings, any `uint` port, any
boolean), loading a file that contains the JSON object writing the seven
fields of `c` under the documented keys returns, without error, a
configuration equal to `c` in every field.  This holds for the file a JSON
writer produces for `c`, and for every file whose text reads as that object,
with the members in any order and any white space. -/
theorem loadConfig_round_trip (w : World) (configPath : String) (c : config)
    (hport : c.ListenPort < 2 ^ uintSize) :
    (w.readFile configPath = .ok (configText c) → loadConfig w configPath = .ok c)
    ∧ ∀ (text : String) (members : List (String × Json)),
        w.readFile configPath = .ok text →
        readValue text = .ok (.obj members) →
        members.Perm (configMembers c) →
        loadConfig w configPath = .ok c := by
  have key : ∀ (text : String) (members : List (String × Json)),
      w.readFile configPath = .ok text → readValue text = .ok (.obj members) →
      members.Perm (configMembers c) → loadConfig w configPath = .ok c := by
    intro text members hfile hdoc hperm
    simp [loadConfig, hfile, decodeConfig, hdoc,
      storeConfig_configMembers c hport members hperm]
  exact ⟨fun hfile => key _ _ hfile (readValue_configText c) (List.Perm.refl _), key⟩

/-- C7 at the sample configuration file, which is written with white space. -/
theorem loadConfig_round_trip_witness :
    loadConfig (sampleWorld sampleInventory) "config.json" = .ok sampleConfig :=
  (loadConfig_round_trip (sampleWorld sampleInventory) "config.json" sampleConfig
    (by decide)).2
    ("\x7b\"unifi_url\": \"https://unifi:8443\", \"blackbox_url\": \"http://blackbox:9115\", "
      ++ "\"Site\": \"default\", \"Username\": \"admin\", \"Password\": \"secret\", "
      ++ "\"listen_port\": 9100, \"insecure_https\": false\x7d")
    (configMembers sampleConfig) (by rfl) (by rfl) (List.Perm.refl _)

/-- C9, as stated, fails: with a line break at the end of the configured site
name, the login at the sample controller succeeds, yet the only upstream call
of the request is the login POST; no GET is made, because the request for the
device listing cannot be built. -/
theorem no_listing_call_for_line_break_site :
    (login (sampleWorld sampleInventory) lineBreakConfig.UnifiURL lineBreakConfig.Username
        lineBreakConfig.Password).1 = .ok sampleCookies
    ∧ (handler lineBreakConfig (sampleWorld sampleInventory)).calls
        = [.post "https://unifi:8443/api/login" "application/json"
            "\x7b\"username\":\"admin\",\"password\":\"secret\"\x7d"]
    ∧ (handler lineBreakConfig (sampleWorld sampleInventory)).outcome
        = .fatal "" (.wrap "getting device list creating request: "
            (.url "parse" "https://unifi:8443/api/s/default\n/stat/device"
              (.msg "net/url: invalid control character in URL"))) := by
  refine ⟨by rfl, by rfl, by rfl⟩

/-- C9, amended: for every inbound request whose login succeeds, the first
upstream call is one POST to `UnifiURL ++ "/api/login"` with content type
`application/json` and a body that is the JSON object with exactly the keys
`username` and `password` holding the configured values; if the request for
`UnifiURL ++ "/api/s/" ++ Site ++ "/stat/device"` can be built, it is followed
by exactly one GET to that URL carrying the cookies of that login response,
each once, in the order issued, and no other cookie; if it cannot be built, the
POST is the only call. -/
theorem upstream_calls (cfg : config) (w : World) (cookies : List Cookie)
    (hl : (login w cfg.UnifiURL cfg.Username cfg.Password).1 = .ok cookies) :
    ∃ resp : Response,
      w.post (cfg.UnifiURL ++ "/api/login") "application/json"
          (credentialsText cfg.Username cfg.Password) = .ok resp
      ∧ resp.StatusCode = 200 ∧ resp.Cookies = cookies
      ∧ readValue (credentialsText cfg.Username cfg.Password)
          = .ok (.obj [("username", .str cfg.Username), ("password", .str cfg.Password)])
      ∧ (w.parseURL (cfg.UnifiURL ++ "/api/s/" ++ cfg.Site ++ "/stat/device") = .ok () →
          (handler cfg w).calls
            = [.post (cfg.UnifiURL ++ "/api/login") "application/json"
                (credentialsText cfg.Username cfg.Password),
              .send ⟨"GET", cfg.UnifiURL ++ "/api/s/" ++ cfg.Site ++ "/stat/device",
                resp.Cookies⟩])
      ∧ ∀ e, w.parseURL (cfg.UnifiURL ++ "/api/s/" ++ cfg.Site ++ "/stat/device") = .error e →
          (handler cfg w).calls
            = [.post (cfg.UnifiURL ++ "/api/login") "application/json"
                (credentialsText cfg.Username cfg.Password)] := by
  obtain ⟨resp, hp, h200, hc⟩ := login_ok_response w _ _ _ cookies hl
  refine ⟨resp, hp, h200, hc, readValue_credentials _ _, ?_, ?_⟩
  · intro hu
    rw [handler_calls_of_login_ok cfg w cookies hl, login_calls,
      getDeviceList_calls_of_sent w cookies _ _ hu, foldl_AddCookie, hc]
    rfl
  · intro e hu
    rw [handler_calls_of_login_ok cfg w cookies hl, login_calls]
    simp [getDeviceList, newRequest, hu]

/-- C9, amended, at the sample controller. -/
theorem upstream_calls_witness :
    ∃ resp : Response,
      resp.Cookies = sampleCookies
      ∧ (handler sampleConfig (sampleWorld sampleInventory)).calls
        = [.post "https://unifi:8443/api/login" "application/json"
            (credentialsText "admin" "secret"),
          .send ⟨"GET", "https://unifi:8443/api/s/default/stat/device", resp.Cookies⟩] := by
  obtain ⟨resp, _, _, hc, _, h, _⟩ :=
    upstream_calls sampleConfig (sampleWorld sampleInventory) sampleCookies (by rfl)
  exact ⟨resp, hc, h (by rfl)⟩

end UnifiPromSD
